import Mathlib

/-!
Browser controller (`chrome` package): process supervision and target discovery.

A shallow embedding of `src/chrome/chrome.go`.

* A Go `string` is a Lean `String`; `strings.Contains` and `strings.Split` work on the
  underlying character list (a byte of a Go string is read as the character with that code).
* Everything outside the process (file system, process table, HTTP discovery endpoint,
  JSON decoder, socket dialer) is explicit: mutable parts live in `World`, the answers of
  the outside world are the fields of `Env`, and every side effect a function performs is
  appended to `World.trace` in program order.
* A nil pointer is `none`; a Go run-time panic is `Outcome.panic`.
* Goroutines are run at the point where they are spawned, up to their first blocking
  operation.
-/

namespace chrome

/-! ## Data model -/

/-- Buffered Go channel of byte strings: `make(chan []byte, cap)`. -/
structure Chan where
  cap : Nat
  buf : List String
deriving DecidableEq, Repr

/-- The call `make(chan []byte, n)`: an empty queue of capacity `n`. -/
def makeChan (n : Nat) : Chan := { cap := n, buf := [] }

/-- Modelled from the spec: the declaration of the `Ipc` part of `Tab` is not among the
sources; these are the four fields `chrome.go` assigns (`Conn`, `events`, `returns`,
`errors`), a nil socket or channel being `none`. -/
structure IpcState where
  Conn : Option Nat
  events : Option Chan
  returns : Option Chan
  errors : Option Chan
deriving DecidableEq, Repr

/-- Modelled from the spec: the declaration of `Tab` is not among the sources; a target
descriptor is {id, title, url, socketAddress} and `chrome.go` reads `Id`, `Title`, `Url`,
`WebSocketDebuggerUrl` and writes `Ipc`. -/
structure Tab where
  Id : String
  Title : String
  Url : String
  WebSocketDebuggerUrl : String
  Ipc : IpcState
deriving DecidableEq, Repr

/-- The Go struct `Chrome`; `process` is a pid, `timeout` is in nanoseconds. -/
structure Chrome where
  bin : String
  remoteAddr : String
  dataDir : String
  process : Option Nat
  timeout : Nat
deriving DecidableEq, Repr

/-- Which of the three queues of a connection a `make` call creates. -/
inductive Queue where
  | events
  | returns
  | errors
deriving DecidableEq, Repr

/-- Side effects, in the vocabulary of the calls `chrome.go` makes. -/
inductive Effect where
  | stat (path : String)
  | start (bin : String) (args : List String)
  | setTimeout (d : Nat)
  | httpGet (url : String)
  | closeBody
  | notify
  | signalReceived
  | logged (msg : String)
  | removeAll (path : String)
  | kill (pid : Nat)
  | dial (url : String)
  | makeQueue (q : Queue) (cap : Nat)
  | send (method : String) (params : List (String × String))
  | goHandle
deriving DecidableEq, Repr

/-- Life cycle of an operating-system process as seen through `os.Process`. -/
inductive ProcStatus where
  | running
  | killed
  | reaped
deriving DecidableEq, Repr

/-- The mutable outside world. `files` are the existing paths, `locked` the paths the
process may not remove, `procs` the process table, `httpCount` the number of HTTP requests
made so far, `httpTimeout` the global `http.DefaultClient.Timeout`, `handler` the browser
captured by a goroutine blocked on the signal channel. -/
structure World where
  files : List String
  locked : List String
  procs : List (Nat × ProcStatus)
  httpCount : Nat
  httpTimeout : Nat
  handler : Option Chrome
  trace : List Effect
deriving DecidableEq, Repr

/-- Answers of the outside world and the package-level values `chrome.go` uses but does not
declare. `httpGet n t url` is the answer to the `n`-th request when the client timeout is
`t` (a body or a transport error), `send` is the `Tab.Send` method. The decoders fill a
`[]*Tab` and a `*Tab`: a JSON `null` decodes without error to a nil pointer, `none`. -/
structure Env where
  httpGet : Nat → Nat → String → Except String String
  decodeTabs : String → Except String (List (Option Tab))
  decodeTab : String → Except String (Option Tab)
  start : String → List String → Except String Nat
  dial : String → Except String Nat
  send : Tab → String → List (String × String) → Tab × Option String
  defaultChrome : List String
  defaultUserDataTmpDir : String

/-- Result of a call that may panic. -/
inductive Outcome (α : Type) where
  | panic
  | ret (a : α)
deriving DecidableEq, Repr

/-- Append one effect to the trace. -/
def World.log (w : World) (e : Effect) : World := { w with trace := w.trace ++ [e] }

/-! ## Library functions -/

/-- Go `strings.Contains` on character lists: `sub` occurs in `s` at some offset. -/
def containsChars : List Char → List Char → Bool
  | [], sub => sub.isEmpty
  | a :: s, sub => sub.isPrefixOf (a :: s) || containsChars s sub

/-- Go `strings.Contains(s, substr)`. -/
def stringsContains (s substr : String) : Bool := containsChars s.data substr.data

/-- Go `http.Get(url)`: one request, answered by the environment. -/
def httpGet (env : Env) (url : String) (w : World) : Except String String × World :=
  (env.httpGet w.httpCount w.httpTimeout url,
   { w with httpCount := w.httpCount + 1, trace := w.trace ++ [Effect.httpGet url] })

/-! ## `Chrome.Find` -/

/-- The condition of the `if` in the loop of `Find`. -/
def matchesKw (kw : String) (tab : Tab) : Bool :=
  stringsContains tab.Url kw || stringsContains tab.Id kw || stringsContains tab.Title kw

/-- The three assignments `tab.Ipc.events/returns/errors = make(chan []byte, 1024)`. -/
def withQueues (tab : Tab) : Tab :=
  { tab with Ipc := { tab.Ipc with events := some (makeChan 1024),
                                   returns := some (makeChan 1024),
                                   errors := some (makeChan 1024) } }

/-- Effects of the three `make` calls. -/
def queueEffects : List Effect :=
  [Effect.makeQueue Queue.events 1024, Effect.makeQueue Queue.returns 1024,
   Effect.makeQueue Queue.errors 1024]

/-- The `for _, tab := range tabs` loop of `Find` over the decoded `[]*Tab`: the condition
reads `tab.Url` first, so a nil entry panics when the loop reaches it. -/
def findLoop (kw : String) : List (Option Tab) → Outcome (Option Tab)
  | [] => Outcome.ret none
  | none :: _ => Outcome.panic
  | some tab :: rest =>
    if matchesKw kw tab then Outcome.ret (some (withQueues tab)) else findLoop kw rest

/-- The targets the decoded slice `tabs` points to when the loop of `Find` has ended: the
loop assigns through the pointer of the entry it returns and through no other. -/
def tabsAfterFind (kw : String) : List (Option Tab) → List (Option Tab)
  | [] => []
  | none :: rest => none :: rest
  | some tab :: rest =>
    if matchesKw kw tab then some (withQueues tab) :: rest
    else some tab :: tabsAfterFind kw rest

/-- Go `(*Chrome).Find`. The deferred `r.Body.Close()` runs last, also when the loop
panics. -/
def Chrome.Find (env : Env) (c : Chrome) (kw : String) (w : World) :
    Outcome (Option Tab × Option String) × World :=
  match httpGet env ("http://" ++ c.remoteAddr ++ "/json") w with
  | (Except.error e, w1) => (Outcome.ret (none, some ("Http request error:" ++ e)), w1)
  | (Except.ok body, w1) =>
    match env.decodeTabs body with
    | Except.error e => (Outcome.ret (none, some e), w1.log Effect.closeBody)
    | Except.ok tabs =>
      match findLoop kw tabs with
      | Outcome.panic => (Outcome.panic, w1.log Effect.closeBody)
      | Outcome.ret (some tab) => (Outcome.ret (some tab, none),
          ({ w1 with trace := w1.trace ++ queueEffects }).log Effect.closeBody)
      | Outcome.ret none => (Outcome.ret (none, some "tab not found"), w1.log Effect.closeBody)

/-! ## `newTab` and `Chrome.Open` -/

/-- Modelled from the spec: the constant `dom.Enable` of the protocol catalogue, which is
not among the sources; the catalogue names a method `<Domain>.<method>`. -/
def domEnable : String := "DOM.enable"

/-- Modelled from the spec: the constant `page.Enable` of the protocol catalogue, which is
not among the sources. -/
def pageEnable : String := "Page.enable"

/-- Go `newTab` on a non-nil `tab`. `dom.EnableParams{}` and `page.EnableParams{}` are
empty parameter records; the results of both `Send` calls are discarded; the goroutine
running `tab.handle()` is recorded as `goHandle`. -/
def newTab (env : Env) (tab : Tab) (w : World) : (Option Tab × Option String) × World :=
  let w1 := w.log (Effect.dial tab.WebSocketDebuggerUrl)
  match env.dial tab.WebSocketDebuggerUrl with
  | Except.error e => ((none, some e), w1)
  | Except.ok conn =>
    let tab1 : Tab := { tab with Ipc := { Conn := some conn,
                                          events := some (makeChan 1024),
                                          returns := some (makeChan 1024),
                                          errors := some (makeChan 1024) } }
    let w2 : World := { w1 with trace := w1.trace ++ queueEffects }
    let tab2 := (env.send tab1 domEnable []).1
    let w3 := w2.log (Effect.send domEnable [])
    let tab3 := (env.send tab2 pageEnable []).1
    let w4 := w3.log (Effect.send pageEnable [])
    ((some tab3, none), w4.log Effect.goHandle)

/-- Go `(*Chrome).Open`. The decoder is given `&tab`, so a `null` body leaves `tab` nil
and `newTab` panics on `tab.WebSocketDebuggerUrl` before it dials. The deferred
`r.Body.Close()` runs last, also on that panic. -/
def Chrome.Open (env : Env) (c : Chrome) (url : String) (w : World) :
    Outcome (Option Tab × Option String) × World :=
  match httpGet env ("http://" ++ c.remoteAddr ++ "/json/new?" ++ url) w with
  | (Except.error e, w1) => (Outcome.ret (none, some ("Http request error:" ++ e)), w1)
  | (Except.ok body, w1) =>
    match env.decodeTab body with
    | Except.error e =>
      (Outcome.ret (none, some ("Open new window error:" ++ e)), w1.log Effect.closeBody)
    | Except.ok none => (Outcome.panic, w1.log Effect.closeBody)
    | Except.ok (some tab) =>
      let r := newTab env tab w1
      (Outcome.ret r.1, r.2.log Effect.closeBody)

/-! ## `Chrome.Close` -/

/-- Go `os.RemoveAll(path)`: the empty path and a missing path are not errors; a locked
path stays and gives an error; otherwise the path and everything below it are removed. -/
def removeAll (path : String) (w : World) : Option String × World :=
  let w1 := w.log (Effect.removeAll path)
  if path = "" then (none, w1)
  else if w.locked.contains path && w.files.contains path then
    (some ("unlinkat " ++ path ++ ": permission denied"), w1)
  else
    (none, { w1 with files :=
      w1.files.filter (fun f => !(f == path || (path ++ "/").isPrefixOf f)) })

/-- The process table after a kill signal was delivered to `pid`. -/
def markKilled (pid : Nat) (procs : List (Nat × ProcStatus)) : List (Nat × ProcStatus) :=
  procs.map (fun e => if e.1 = pid then (pid, ProcStatus.killed) else e)

/-- Go `(*os.Process).Kill` on a non-nil process: a process that is gone gives
`os: process already finished`; otherwise it is signalled and becomes `killed`. -/
def kill (pid : Nat) (w : World) : Option String × World :=
  let w1 := w.log (Effect.kill pid)
  match w.procs.lookup pid with
  | some ProcStatus.running => (none, { w1 with procs := markKilled pid w1.procs })
  | some ProcStatus.killed => (none, { w1 with procs := markKilled pid w1.procs })
  | _ => (some "os: process already finished", w1)

/-- Go `(*Chrome).Close`. The result of `os.RemoveAll` is assigned to `_`; calling `Kill`
through a nil `process` dereferences it and panics. -/
def Chrome.Close (c : Chrome) (w : World) : Outcome (Option String) × World :=
  let w1 := (removeAll c.dataDir w).2
  match c.process with
  | none => (Outcome.panic, w1)
  | some pid => (Outcome.ret (kill pid w1).1, (kill pid w1).2)

/-! ## `Create` -/

/-- Go `os.Stat(path)` succeeding: the path names an existing file. -/
def statOk (w : World) (path : String) : Bool := path != "" && w.files.contains path

/-- The search `for _, filename := range defaultChrome` with its `break`. -/
def searchDefault (w : World) : List String → Option String × World
  | [] => (none, w)
  | filename :: rest =>
    if statOk w filename then (some filename, w.log (Effect.stat filename))
    else searchDefault (w.log (Effect.stat filename)) rest

/-- Go `strings.Split` on character lists, for a one-character separator. -/
def splitChars (sep : Char) : List Char → List (List Char)
  | [] => [[]]
  | a :: s =>
    if a = sep then [] :: splitChars sep s
    else match splitChars sep s with
      | [] => [[a]]
      | h :: t => (a :: h) :: t

/-- Go `strings.Split(s, sep)` for a one-character separator. -/
def stringsSplit (s : String) (sep : Char) : List String :=
  (splitChars sep s.data).map String.mk

/-- The constant `time.Second`, in nanoseconds. -/
def second : Nat := 1000000000

/-- The part of `Create` up to the final `os.Stat`: options, default binary search,
default address, profile directory and timeout. -/
def resolve (env : Env) (opts : List (Chrome → Chrome)) (w : World) : Chrome × World :=
  let c1 := opts.foldl (fun c opt => opt c) (Chrome.mk "" "" "" none 0)
  let r : Chrome × World :=
    if c1.bin = "" then
      match searchDefault w env.defaultChrome with
      | (some filename, w1) => ({ c1 with bin := filename }, w1)
      | (none, w1) => (c1, w1)
    else (c1, w)
  let c2 := r.1
  let c3 := if c2.remoteAddr = "" then { c2 with remoteAddr := "127.0.0.1:9222" } else c2
  let c4 := if c3.dataDir = "" then { c3 with dataDir := env.defaultUserDataTmpDir } else c3
  let c5 := if c4.timeout = 0 then { c4 with timeout := 5 * second } else c4
  (c5, r.2)

/-- Go `Create`. An option is a function on the browser record. The goroutine that stores
`cmd.Process` runs where it is spawned; the goroutine of the signal handler runs up to its
receive on the signal channel, where it stays in `World.handler`. -/
def Create (env : Env) (opts : List (Chrome → Chrome)) (w : World) :
    Outcome (Option Chrome × Option String) × World :=
  let c := (resolve env opts w).1
  let w1 := (resolve env opts w).2
  let w2 := w1.log (Effect.stat c.bin)
  if !statOk w1 c.bin then (Outcome.ret (none, some "Chrome not found "), w2)
  else
    match (stringsSplit c.remoteAddr ':')[1]? with
    | none => (Outcome.panic, w2)
    | some port =>
      let args := ["--remote-debugging-port=" ++ port, "--user-data-dir=" ++ c.dataDir]
      let w3 := w2.log (Effect.start c.bin args)
      match env.start c.bin args with
      | Except.error e =>
        (Outcome.ret (none, some ("Start chrome with error: " ++ e ++ " ")), w3)
      | Except.ok pid =>
        let c6 : Chrome := { c with process := some pid }
        let w4 : World := { w3 with procs := (pid, ProcStatus.running) :: w3.procs }
        let w5 : World := { w4 with httpTimeout := c6.timeout,
                                    trace := w4.trace ++ [Effect.setTimeout c6.timeout] }
        match httpGet env "http://127.0.0.1:9222" w5 with
        | (Except.error e, w6) => (Outcome.ret (none, some e), w6)
        | (Except.ok _, w6) =>
          let w7 := w6.log Effect.closeBody
          (Outcome.ret (some c6, none),
           ({ w7 with handler := some c6 }).log Effect.notify)

/-! ## Interrupt handling -/

/-- The process table after `cmd.Wait()` returned for the process `pid`: a killed process
has been reaped. -/
def markReaped (pid : Nat) (procs : List (Nat × ProcStatus)) : List (Nat × ProcStatus) :=
  procs.map (fun e =>
    if e.1 = pid ∧ e.2 = ProcStatus.killed then (pid, ProcStatus.reaped) else e)

/-- What can happen to a launched browser: the caller closes it, an interrupt signal is
delivered to the controlling process, or the `cmd.Wait()` of the goroutine started by
`Create` returns because the browser process has been killed. -/
inductive Event where
  | callerClose
  | signal
  | waited
deriving DecidableEq, Repr

/-- One event. The handler goroutine of `Create` is `<-s` followed by `c.Close()` and a
`log.Println` of its error; it then ends, so a later signal finds no receiver. The
goroutine blocked in `cmd.Wait()` reaps the process once it has been killed. -/
def step (c : Chrome) (w : World) : Event → World
  | Event.callerClose => (c.Close w).2
  | Event.signal =>
    match w.handler with
    | none => w
    | some h =>
      let w1 := ({ w with handler := none }).log Effect.signalReceived
      match h.Close w1 with
      | (Outcome.ret (some e), w2) => w2.log (Effect.logged e)
      | (_, w2) => w2
  | Event.waited =>
    match c.process with
    | none => w
    | some pid => { w with procs := markReaped pid w.procs }

/-- A sequence of events, oldest first. -/
def run (c : Chrome) (w : World) (evs : List Event) : World := evs.foldl (step c) w

/-! ## Router: `Send` and the Dispatcher -/

/-- Modelled from the spec: the routing state of a Connection, shared by `Tab.Send` and the
Dispatcher read loop `Tab.handle`, neither of which is among the sources. `nextId` is the
message-id counter, `pending` the table from in-flight id to completion slot (a slot is
named by the caller blocked on it), `written` the outbound frames {id, method} in the order
they were written, `resolved` the resolutions delivered so far, as (caller, payload), oldest
first. -/
structure Router where
  nextId : Nat
  pending : List (Nat × String)
  written : List (Nat × String)
  resolved : List (String × String)
deriving DecidableEq, Repr

/-- Modelled from the spec: what can happen on a Connection, `Tab.Send` and `Tab.handle`
not being among the sources: a caller invokes Send, or the Dispatcher reads an inbound
frame carrying an id and a result payload. -/
inductive Action where
  | send (caller method : String)
  | frame (id : Nat) (payload : String)
deriving DecidableEq, Repr

/-- Modelled from the spec: the Dispatcher looking up the matching PendingRequest by id in
the table of in-flight requests (the code is not among the sources); gives the slot and the
table without that entry, or nothing when no pending entry has the id. -/
def takePending (id : Nat) : List (Nat × String) → Option (String × List (Nat × String))
  | [] => none
  | (j, c) :: rest =>
    if j = id then some (c, rest)
    else match takePending id rest with
      | some (c2, rest2) => some (c2, (j, c) :: rest2)
      | none => none

/-- Modelled from the spec: `Send` up to the point where it blocks (`Tab.Send` is not among
the sources): it allocates the next id, inserts a PendingRequest keyed by that id and
writes the OutboundMessage, atomically with respect to other callers. -/
def Router.send (r : Router) (caller method : String) : Router :=
  { r with nextId := r.nextId + 1,
           pending := (r.nextId, caller) :: r.pending,
           written := r.written ++ [(r.nextId, method)] }

/-- Modelled from the spec: the Dispatcher on one command-result frame (`Tab.handle` is not
among the sources): the matching PendingRequest is resolved with the payload and leaves the
table; a frame whose id has no pending entry is discarded. -/
def Router.dispatch (r : Router) (id : Nat) (payload : String) : Router :=
  match takePending id r.pending with
  | some (caller, rest) =>
    { r with pending := rest, resolved := r.resolved ++ [(caller, payload)] }
  | none => r

/-- Modelled from the spec: one action on a Connection, `Tab.Send` and `Tab.handle` not
being among the sources. -/
def Router.step (r : Router) : Action → Router
  | Action.send caller method => r.send caller method
  | Action.frame id payload => r.dispatch id payload

/-- Modelled from the spec: a sequence of actions on a Connection, oldest first; any
interleaving of concurrent Sends and inbound frames is such a sequence. -/
def Router.run (r : Router) (acts : List Action) : Router := acts.foldl Router.step r

/-- Modelled from the spec: the Router of a Connection that was just created, with empty
tables; `first` is the first id of the counter, which the spec leaves open. -/
def Router.opened (first : Nat) : Router :=
  { nextId := first, pending := [], written := [], resolved := [] }

/-- The callers of the Sends of a sequence of actions, in order. -/
def callers : List Action → List String
  | [] => []
  | Action.send caller _ :: rest => caller :: callers rest
  | Action.frame _ _ :: rest => callers rest

/-- The resolutions a caller has received. -/
def resolutionsOf (caller : String) (r : Router) : List (String × String) :=
  r.resolved.filter (fun e => e.1 == caller)

/-- The pending requests of a caller. -/
def pendingOf (caller : String) (r : Router) : List (Nat × String) :=
  r.pending.filter (fun e => e.2 == caller)

/-! ## Specification vocabulary -/

/-- The keyword occurs as a contiguous substring of the target's id, url or title. -/
def mentions (kw : String) (t : Tab) : Prop :=
  kw.data <:+: t.Id.data ∨ kw.data <:+: t.Url.data ∨ kw.data <:+: t.Title.data

/-- The paths that exist after `os.RemoveAll(path)`, from those that existed before. -/
def filesAfterRemove (path : String) (locked files : List String) : List String :=
  if path = "" then files
  else if locked.contains path && files.contains path then files
  else files.filter (fun f => !(f == path || (path ++ "/").isPrefixOf f))

/-- The process table after `Kill` on the process `pid`. -/
def procsAfterKill (pid : Nat) (procs : List (Nat × ProcStatus)) : List (Nat × ProcStatus) :=
  match procs.lookup pid with
  | some ProcStatus.running => markKilled pid procs
  | some ProcStatus.killed => markKilled pid procs
  | _ => procs

/-- The effects the handler goroutine logs after its `Close` returned: the error, if
any. -/
def handlerLog : Outcome (Option String) → List Effect
  | Outcome.ret (some e) => [Effect.logged e]
  | _ => []

/-- How many times the handler goroutine received a signal and went on to call `Close`. -/
def signalsHandled (trace : List Effect) : Nat := trace.count Effect.signalReceived

/-- The text between the first `sep` and the next one, or the end of the text. -/
def portText (sep : Char) (s : List Char) : List Char :=
  ((s.dropWhile (fun a => a != sep)).drop 1).takeWhile (fun a => a != sep)

/-- The processes started so far, oldest first: binary and arguments of the `start`
effects. -/
def launches : List Effect → List (String × List String)
  | [] => []
  | Effect.start bin args :: rest => (bin, args) :: launches rest
  | _ :: rest => launches rest

/-- The requests made so far, oldest first: the urls of the `httpGet` effects. -/
def requests : List Effect → List String
  | [] => []
  | Effect.httpGet url :: rest => url :: requests rest
  | _ :: rest => requests rest

/-! ## Concrete configurations -/

/-- A descriptor as the discovery endpoint lists it: no socket, no queues. -/
def descriptor (id title url : String) : Tab :=
  { Id := id, Title := title, Url := url,
    WebSocketDebuggerUrl := "ws://127.0.0.1:9222/devtools/page/" ++ id,
    Ipc := { Conn := none, events := none, returns := none, errors := none } }

/-- A listing of four targets; only the third has `example.org` in its url. -/
def listing4 : List Tab :=
  [descriptor "A1" "News" "http://news.test/", descriptor "B2" "Mail" "http://mail.test/",
   descriptor "C3" "Docs" "http://example.org/docs", descriptor "D4" "Shop" "http://shop.test/"]

/-- An environment in which every request is answered, the listing is `listing4`, the
browser starts as process 42 and every dial succeeds. -/
def envUp : Env :=
  { httpGet := fun _ _ _ => Except.ok "body",
    decodeTabs := fun _ => Except.ok (listing4.map some),
    decodeTab := fun _ => Except.ok (some (descriptor "E5" "" "about:blank")),
    start := fun _ _ => Except.ok 42,
    dial := fun _ => Except.ok 7,
    send := fun tab _ _ => (tab, none),
    defaultChrome := ["/usr/bin/google-chrome", "/usr/bin/chromium"],
    defaultUserDataTmpDir := "/tmp/chr-profile" }

/-- The environment `envUp` with a browser that lists no target at all. -/
def envNoTargets : Env := { envUp with decodeTabs := fun _ => Except.ok [] }

/-- The environment `envUp` with the listing `[null]`. -/
def envNullOnly : Env := { envUp with decodeTabs := fun _ => Except.ok [none] }

/-- A machine with chromium installed and a profile directory holding one file. -/
def world0 : World :=
  { files := ["/usr/bin/chromium", "/tmp/chr-profile", "/tmp/chr-profile/Default"],
    locked := [], procs := [], httpCount := 0, httpTimeout := 0, handler := none,
    trace := [] }

/-- The world right after `Create envUp [] world0` returned. -/
def launched0 : World := (Create envUp [] world0).2

/-- The world `launched0` in which the profile directory cannot be removed. -/
def launchedLocked : World := { launched0 with locked := ["/tmp/chr-profile"] }

/-- The environment `envUp` with a browser that refuses the first request, being still
starting, and answers every later one. -/
def envSlow : Env :=
  { envUp with httpGet := fun n _ _ =>
      if n = 0 then Except.error "dial tcp 127.0.0.1:9222: connect: connection refused"
      else Except.ok "body" }

/-- The environment `envUp` with a target whose socket handshake fails. -/
def envNoDial : Env := { envUp with dial := fun _ => Except.error "websocket: bad handshake" }

/-- The machine `world0` without any browser binary. -/
def worldBare : World := { world0 with files := ["/tmp/chr-profile"] }

/-- An option that sets the debug address: `c.remoteAddr = addr`. -/
def withAddr (addr : String) : Chrome → Chrome := fun c => { c with remoteAddr := addr }

/-- A launched browser at the default debug address. -/
def chrome0 : Chrome :=
  { bin := "/usr/bin/chromium", remoteAddr := "127.0.0.1:9222", dataDir := "/tmp/chr-profile",
    process := some 42, timeout := 5 * second }

/-! ## Substring search -/

theorem containsChars_iff_infix (s sub : List Char) :
    containsChars s sub = true ↔ sub <:+: s := by
  induction s with
  | nil => cases sub <;> simp [containsChars]
  | cons a s ih =>
    rw [containsChars, Bool.or_eq_true, ih, List.isPrefixOf_iff_prefix, List.infix_cons_iff]

theorem matchesKw_iff_mentions (kw : String) (t : Tab) :
    matchesKw kw t = true ↔ mentions kw t := by
  unfold matchesKw mentions stringsContains
  simp only [Bool.or_eq_true, containsChars_iff_infix]
  tauto

/-! ## The scan of `Find` -/

theorem findLoop_eq_none (kw : String) (tabs : List (Option Tab)) :
    findLoop kw tabs = Outcome.ret none ↔
      ∀ x ∈ tabs, ∃ t, x = some t ∧ matchesKw kw t = false := by
  induction tabs with
  | nil => simp [findLoop]
  | cons a rest ih =>
    cases a with
    | none => simp [findLoop]
    | some t =>
      by_cases h : matchesKw kw t = true
      · simp [findLoop, h]
      · simp [findLoop, h, ih]

theorem lookup_markKilled (pid : Nat) (procs : List (Nat × ProcStatus)) :
    (markKilled pid procs).lookup pid = (procs.lookup pid).map (fun _ => ProcStatus.killed) := by
  induction procs with
  | nil => rfl
  | cons e rest ih =>
    obtain ⟨k, st⟩ := e
    have hm : markKilled pid ((k, st) :: rest)
        = (if k = pid then (pid, ProcStatus.killed) else (k, st)) :: markKilled pid rest := rfl
    rw [hm]
    by_cases h : k = pid
    · subst h
      rw [if_pos rfl]
      simp [List.lookup]
    · have h2 : (pid == k) = false := by simpa using fun h3 => h h3.symm
      rw [if_neg h]
      simp [List.lookup, h2, ih]

theorem markKilled_idem (pid : Nat) (procs : List (Nat × ProcStatus)) :
    markKilled pid (markKilled pid procs) = markKilled pid procs := by
  unfold markKilled
  rw [List.map_map]
  apply List.map_congr_left
  intro e _
  by_cases h : e.1 = pid <;> simp [h]

/-- The files left by `os.RemoveAll(path)`. -/
theorem removeAll_snd (path : String) (w : World) :
    (removeAll path w).2 = { w with files := filesAfterRemove path w.locked w.files, trace := w.trace ++ [Effect.removeAll path] } := by
  unfold removeAll filesAfterRemove World.log
  split_ifs <;> simp_all

theorem filesAfterRemove_idem (path : String) (locked files : List String) :
    filesAfterRemove path locked (filesAfterRemove path locked files)
      = filesAfterRemove path locked files := by
  unfold filesAfterRemove
  by_cases h1 : path = ""
  · rw [if_pos h1, if_pos h1]
  · by_cases h2 : (locked.contains path && files.contains path) = true
    · rw [if_neg h1, if_pos h2, if_neg h1, if_pos h2]
    · rw [if_neg h1, if_neg h2, if_neg h1]
      have h3 : (List.filter (fun f => !(f == path || (path ++ "/").isPrefixOf f))
          files).contains path = false := by
        simp
      rw [h3, Bool.and_false, if_neg (by simp), List.filter_filter]
      simp

theorem kill_snd (pid : Nat) (w : World) :
    (kill pid w).2 = { w with procs := procsAfterKill pid w.procs, trace := w.trace ++ [Effect.kill pid] } := by
  unfold kill procsAfterKill World.log
  split <;> simp_all

theorem procsAfterKill_idem (pid : Nat) (procs : List (Nat × ProcStatus)) :
    procsAfterKill pid (procsAfterKill pid procs) = procsAfterKill pid procs := by
  unfold procsAfterKill
  cases h : procs.lookup pid with
  | none => simp [h]
  | some st =>
    cases st <;> simp [h, lookup_markKilled, markKilled_idem]

/-! ## What `Create` and `Close` compute -/

theorem Create_ok_inv (env : Env) (opts : List (Chrome → Chrome)) (w : World) (c : Chrome)
    (w' : World) (h : Create env opts w = (Outcome.ret (some c, none), w')) :
    ∃ pid, c.process = some pid ∧ w'.handler = some c ∧
      w'.procs.lookup pid = some ProcStatus.running := by
  unfold Create at h
  simp only [] at h
  split at h
  · cases h
  · split at h
    · cases h
    · split at h
      · cases h
      · split at h
        · cases h
        · rename_i pid hstart _ body w1 hg
          simp only [Prod.mk.injEq, Outcome.ret.injEq, Option.some.injEq, and_true] at h
          obtain ⟨hc, hw⟩ := h
          subst hc hw
          refine ⟨pid, rfl, rfl, ?_⟩
          simp only [httpGet, Prod.mk.injEq] at hg
          obtain ⟨_, hg⟩ := hg
          subst hg
          simp [World.log, List.lookup]

theorem Close_fst (c : Chrome) (pid : Nat) (w : World) (hp : c.process = some pid) :
    (c.Close w).1 = Outcome.ret (kill pid w).1 := by
  unfold Chrome.Close
  rw [hp]
  simp only [removeAll_snd]
  unfold kill
  simp only []
  split <;> simp_all

theorem Close_snd (c : Chrome) (pid : Nat) (w : World) (hp : c.process = some pid) :
    (c.Close w).2 = { w with files := filesAfterRemove c.dataDir w.locked w.files,
                             procs := procsAfterKill pid w.procs,
                             trace := w.trace ++ [Effect.removeAll c.dataDir, Effect.kill pid] } := by
  unfold Chrome.Close
  rw [hp]
  simp [removeAll_snd, kill_snd]

theorem procsAfterKill_not_running (pid : Nat) (procs : List (Nat × ProcStatus)) :
    (procsAfterKill pid procs).lookup pid ≠ some ProcStatus.running := by
  unfold procsAfterKill
  cases h : procs.lookup pid with
  | none => simp [h]
  | some st => cases st <;> simp [h, lookup_markKilled]

theorem filesAfterRemove_gone (path : String) (locked files : List String)
    (h1 : path ≠ "") (h2 : path ∉ locked) : path ∉ filesAfterRemove path locked files := by
  unfold filesAfterRemove
  rw [if_neg h1]
  have h3 : (locked.contains path && files.contains path) = false := by simp [h2]
  rw [h3]
  simp

/-! ## The search for the binary -/

theorem requests_append (xs ys : List Effect) :
    requests (xs ++ ys) = requests xs ++ requests ys := by
  induction xs with
  | nil => rfl
  | cons x xs ih => cases x <;> simp [requests, ih]

theorem requests_stats (paths : List String) : requests (paths.map Effect.stat) = [] := by
  induction paths with
  | nil => rfl
  | cons p ps ih => simpa [requests] using ih

theorem searchDefault_snd (l : List String) (w : World) :
    ∃ paths : List String, (searchDefault w l).2 = { w with trace := w.trace ++ paths.map Effect.stat } := by
  induction l generalizing w with
  | nil => exact ⟨[], by simp [searchDefault]⟩
  | cons f rest ih =>
    unfold searchDefault
    split_ifs
    · exact ⟨[f], by simp [World.log]⟩
    · obtain ⟨paths, hp⟩ := ih (w.log (Effect.stat f))
      refine ⟨f :: paths, ?_⟩
      rw [hp]
      simp [World.log]

theorem resolve_snd (env : Env) (opts : List (Chrome → Chrome)) (w : World) :
    ∃ paths : List String, (resolve env opts w).2 = { w with trace := w.trace ++ paths.map Effect.stat } := by
  unfold resolve
  simp only []
  split_ifs
  · obtain ⟨paths, hp⟩ := searchDefault_snd env.defaultChrome w
    refine ⟨paths, ?_⟩
    split <;> simp_all
  · exact ⟨[], by simp⟩

theorem statOk_resolve (env : Env) (opts : List (Chrome → Chrome)) (w : World) (p : String) :
    statOk (resolve env opts w).2 p = statOk w p := by
  obtain ⟨paths, hp⟩ := resolve_snd env opts w
  rw [hp]
  rfl

/-! ## The signal handler -/

theorem Close_handler (h : Chrome) (v : World) : (h.Close v).2.handler = v.handler := by
  unfold Chrome.Close
  cases h.process <;> simp [removeAll_snd, kill_snd]

theorem Close_signals (h : Chrome) (v : World) :
    signalsHandled (h.Close v).2.trace = signalsHandled v.trace := by
  unfold Chrome.Close signalsHandled
  cases h.process <;> simp [removeAll_snd, kill_snd, List.count_append]

theorem step_signal_armed (c h : Chrome) (v : World) (hv : v.handler = some h) :
    (step c v Event.signal).handler = none ∧
    signalsHandled (step c v Event.signal).trace = signalsHandled v.trace + 1 := by
  unfold step
  simp only [hv]
  split
  · rename_i e w2 heq
    have h1 := Close_handler h (({ v with handler := none }).log Effect.signalReceived)
    have h2 := Close_signals h (({ v with handler := none }).log Effect.signalReceived)
    rw [heq] at h1 h2
    simp only [World.log, signalsHandled, List.count_append] at h1 h2 ⊢
    simp [h1, h2]
  · rename_i heq
    have h1 := Close_handler h (({ v with handler := none }).log Effect.signalReceived)
    have h2 := Close_signals h (({ v with handler := none }).log Effect.signalReceived)
    rw [heq] at h1 h2
    simp only [World.log, signalsHandled, List.count_append] at h1 h2
    simp [signalsHandled, h1, h2]

theorem step_waited (c : Chrome) (v : World) :
    (step c v Event.waited).handler = v.handler ∧
    (step c v Event.waited).trace = v.trace := by
  unfold step
  cases c.process <;> exact ⟨rfl, rfl⟩

theorem run_disarmed (c : Chrome) (evs : List Event) (v : World) (hv : v.handler = none) :
    (run c v evs).handler = none ∧
    signalsHandled (run c v evs).trace = signalsHandled v.trace := by
  induction evs generalizing v with
  | nil => exact ⟨hv, rfl⟩
  | cons e rest ih =>
    cases e with
    | callerClose =>
      have h1 : (step c v Event.callerClose).handler = none := by
        simp [step, Close_handler, hv]
      have := ih _ h1
      simp only [run, List.foldl_cons] at this ⊢
      rw [this.1, this.2]
      simp [step, Close_signals]
    | signal =>
      have h1 : step c v Event.signal = v := by simp [step, hv]
      have := ih v hv
      simp only [run, List.foldl_cons, h1] at this ⊢
      exact this
    | waited =>
      obtain ⟨h1, h2⟩ := step_waited c v
      have := ih _ (h1.trans hv)
      simp only [run, List.foldl_cons] at this ⊢
      rw [this.1, this.2, h2]
      exact ⟨rfl, rfl⟩

theorem run_armed (c h : Chrome) (evs : List Event) (v : World) (hv : v.handler = some h) :
    signalsHandled (run c v evs).trace
      = signalsHandled v.trace + (if Event.signal ∈ evs then 1 else 0) := by
  induction evs generalizing v with
  | nil => simp [run]
  | cons e rest ih =>
    cases e with
    | callerClose =>
      have h1 : (step c v Event.callerClose).handler = some h := by
        simp [step, Close_handler, hv]
      have := ih _ h1
      simp only [run, List.foldl_cons] at this ⊢
      rw [this]
      simp [step, Close_signals]
    | signal =>
      obtain ⟨h1, h2⟩ := step_signal_armed c h v hv
      have := run_disarmed c rest _ h1
      simp only [run, List.foldl_cons] at this ⊢
      rw [this.2, h2]
      simp
    | waited =>
      obtain ⟨h1, h2⟩ := step_waited c v
      have := ih _ (h1.trans hv)
      simp only [run, List.foldl_cons] at this ⊢
      rw [this, h2]
      simp

theorem run_handler_kept (c : Chrome) (pre : List Event) (v : World)
    (hpre : Event.signal ∉ pre) : (run c v pre).handler = v.handler := by
  induction pre generalizing v with
  | nil => rfl
  | cons e rest ih =>
    have hrest : Event.signal ∉ rest := fun hm => hpre (List.mem_cons_of_mem _ hm)
    cases e with
    | callerClose =>
      have := ih (step c v Event.callerClose) hrest
      simp only [run, List.foldl_cons] at this ⊢
      rw [this]
      simp [step, Close_handler]
    | signal => exact absurd (List.mem_cons_self _ _) hpre
    | waited =>
      have := ih (step c v Event.waited) hrest
      simp only [run, List.foldl_cons] at this ⊢
      rw [this]
      exact (step_waited c v).1

theorem run_handler_gone (c h : Chrome) (evs : List Event) (v : World)
    (hv : v.handler = some h) (hs : Event.signal ∈ evs) : (run c v evs).handler = none := by
  induction evs generalizing v with
  | nil => simp at hs
  | cons e rest ih =>
    cases e with
    | callerClose =>
      have h1 : (step c v Event.callerClose).handler = some h := by
        simp [step, Close_handler, hv]
      have hrest : Event.signal ∈ rest := by simpa using hs
      exact ih _ h1 hrest
    | signal => exact (run_disarmed c rest _ (step_signal_armed c h v hv).1).1
    | waited =>
      have hrest : Event.signal ∈ rest := by simpa using hs
      exact ih _ ((step_waited c v).1.trans hv) hrest

theorem kill_fst_procs (pid : Nat) (w1 w2 : World) (h : w1.procs = w2.procs) :
    (kill pid w1).1 = (kill pid w2).1 := by
  unfold kill
  rw [h]
  split <;> rfl

theorem step_signal_exact (c h : Chrome) (pid : Nat) (v : World) (hv : v.handler = some h)
    (hp : h.process = some pid) :
    (step c v Event.signal).trace
      = v.trace ++ [Effect.signalReceived, Effect.removeAll h.dataDir, Effect.kill pid]
        ++ handlerLog (h.Close v).1 := by
  have h1 := Close_fst h pid (({ v with handler := none }).log Effect.signalReceived) hp
  have h2 := Close_snd h pid (({ v with handler := none }).log Effect.signalReceived) hp
  have h3 : (kill pid (({ v with handler := none }).log Effect.signalReceived)).1
      = (kill pid v).1 := kill_fst_procs pid _ _ rfl
  rw [h3] at h1
  rw [Close_fst h pid v hp]
  unfold step
  simp only [hv]
  split
  · rename_i e w2 heq
    rw [heq] at h1 h2
    simp only at h1 h2
    rw [← h1]
    simp [h2, World.log, handlerLog]
  · rename_i x w2 hne heq
    rw [heq] at h1 h2
    simp only at h1 h2
    have hlog : handlerLog (Outcome.ret (kill pid v).1) = [] := by
      cases hk : (kill pid v).1 with
      | none => rfl
      | some e => exact absurd (h1.trans (by rw [hk])) (hne e)
    rw [hlog, h2]
    simp [World.log]

theorem count_Close (c : Chrome) (pid : Nat) (v : World) (x : Effect)
    (hp : c.process = some pid)
    (hx : x = Effect.kill pid ∨ x = Effect.removeAll c.dataDir) :
    (c.Close v).2.trace.count x = v.trace.count x + 1 := by
  rw [Close_snd c pid v hp]
  rcases hx with rfl | rfl <;> simp [List.count_append, List.count_cons]

theorem count_handlerLog (o : Outcome (Option String)) (pid : Nat) (dir : String) (x : Effect)
    (hx : x = Effect.kill pid ∨ x = Effect.removeAll dir) : (handlerLog o).count x = 0 := by
  cases o with
  | panic => rfl
  | ret e =>
    cases e with
    | none => rfl
    | some e => rcases hx with rfl | rfl <;> simp [handlerLog, List.count_cons]

theorem run_count_disarmed (c : Chrome) (pid : Nat) (x : Effect) (evs : List Event)
    (v : World) (hp : c.process = some pid)
    (hx : x = Effect.kill pid ∨ x = Effect.removeAll c.dataDir) (hv : v.handler = none) :
    (run c v evs).trace.count x = v.trace.count x + evs.count Event.callerClose := by
  induction evs generalizing v with
  | nil => simp [run]
  | cons e rest ih =>
    cases e with
    | callerClose =>
      have h1 : (step c v Event.callerClose).handler = none := by
        simp [step, Close_handler, hv]
      have := ih _ h1
      simp only [run, List.foldl_cons] at this ⊢
      rw [this]
      have h2 : (step c v Event.callerClose).trace.count x = v.trace.count x + 1 :=
        count_Close c pid v x hp hx
      rw [h2, List.count_cons_self]
      omega
    | signal =>
      have h1 : step c v Event.signal = v := by simp [step, hv]
      have := ih v hv
      simp only [run, List.foldl_cons, h1] at this ⊢
      rw [this]
      simp [List.count_cons]
    | waited =>
      obtain ⟨h1, h2⟩ := step_waited c v
      have := ih _ (h1.trans hv)
      simp only [run, List.foldl_cons] at this ⊢
      rw [this, h2]
      simp [List.count_cons]

theorem run_count_armed (c : Chrome) (pid : Nat) (x : Effect) (evs : List Event)
    (v : World) (hp : c.process = some pid)
    (hx : x = Effect.kill pid ∨ x = Effect.removeAll c.dataDir) (hv : v.handler = some c) :
    (run c v evs).trace.count x
      = v.trace.count x + evs.count Event.callerClose
        + (if Event.signal ∈ evs then 1 else 0) := by
  induction evs generalizing v with
  | nil => simp [run]
  | cons e rest ih =>
    cases e with
    | callerClose =>
      have h1 : (step c v Event.callerClose).handler = some c := by
        simp [step, Close_handler, hv]
      have := ih _ h1
      simp only [run, List.foldl_cons] at this ⊢
      rw [this]
      have h2 : (step c v Event.callerClose).trace.count x = v.trace.count x + 1 :=
        count_Close c pid v x hp hx
      rw [h2, List.count_cons_self]
      simp only [List.mem_cons, false_or, reduceCtorEq]
      omega
    | signal =>
      have h1 := (step_signal_armed c c v hv).1
      have h2 := step_signal_exact c c pid v hv hp
      have h3 := run_count_disarmed c pid x rest _ hp hx h1
      simp only [run, List.foldl_cons] at h3 ⊢
      rw [h3, h2]
      have h4 := count_handlerLog (c.Close v).1 pid c.dataDir x hx
      have h5 : List.count x [Effect.signalReceived, Effect.removeAll c.dataDir,
          Effect.kill pid] = 1 := by
        rcases hx with rfl | rfl <;> simp [List.count_cons]
      simp only [List.count_append, h4, h5, List.mem_cons, true_or, if_true]
      simp [List.count_cons]
      omega
    | waited =>
      obtain ⟨h1, h2⟩ := step_waited c v
      have := ih _ (h1.trans hv)
      simp only [run, List.foldl_cons] at this ⊢
      rw [this, h2]
      simp [List.count_cons]

/-! ## Claims -/

/-- C2 as stated fails: the listing `[null]` is fetched and decoded without error and no
target of it contains the keyword, yet `Find` does not return `tab not found`: it
panics. -/
theorem Find_panics_on_null_listing :
    envNullOnly.httpGet world0.httpCount world0.httpTimeout
      ("http://" ++ chrome0.remoteAddr ++ "/json") = Except.ok "body" ∧
    envNullOnly.decodeTabs "body" = Except.ok [none] ∧
    (∀ t : Tab, some t ∈ ([none] : List (Option Tab)) → ¬ mentions "example.org" t) ∧
    (chrome0.Find envNullOnly "example.org" world0).1 = Outcome.panic ∧
    (chrome0.Find envNullOnly "example.org" world0).1
      ≠ Outcome.ret (none, some "tab not found") :=
  ⟨rfl, rfl, by simp, by decide, by decide⟩

/-- C2, amended: on a fetched and decoded listing, Find returns no target and the error
`tab not found` exactly when every entry of the listing is a target (not null) and no
target's id, url or title contains the keyword; on the empty listing it does so for every
keyword. -/
theorem Find_not_found_iff (env : Env) (c : Chrome) (kw : String) (w : World)
    (body : String) (tabs : List (Option Tab))
    (hget : env.httpGet w.httpCount w.httpTimeout ("http://" ++ c.remoteAddr ++ "/json")
      = Except.ok body)
    (hdec : env.decodeTabs body = Except.ok tabs) :
    ((c.Find env kw w).1 = Outcome.ret (none, some "tab not found") ↔
      ∀ x ∈ tabs, ∃ t, x = some t ∧ ¬ mentions kw t) ∧
    (tabs = [] → (c.Find env kw w).1 = Outcome.ret (none, some "tab not found")) := by
  have key : (c.Find env kw w).1 = Outcome.ret (none, some "tab not found") ↔
      findLoop kw tabs = Outcome.ret none := by
    cases hf : findLoop kw tabs with
    | panic => simp [Chrome.Find, httpGet, hget, hdec, hf]
    | ret o => cases o <;> simp [Chrome.Find, httpGet, hget, hdec, hf]
  constructor
  · rw [key, findLoop_eq_none]
    constructor
    · intro h x hx
      obtain ⟨t, ht, hm⟩ := h x hx
      refine ⟨t, ht, fun hmt => ?_⟩
      rw [(matchesKw_iff_mentions kw t).mpr hmt] at hm
      exact Bool.noConfusion hm
    · intro h x hx
      obtain ⟨t, ht, hm⟩ := h x hx
      refine ⟨t, ht, ?_⟩
      cases hmk : matchesKw kw t
      · rfl
      · exact absurd ((matchesKw_iff_mentions kw t).mp hmk) hm
  · intro he
    rw [key, he]
    rfl

/-- C2, amended, on a browser that lists no target: every keyword, here `example.org`, is
not found. -/
theorem Find_not_found_iff_witness :
    ((chrome0.Find envNoTargets "example.org" world0).1
        = Outcome.ret (none, some "tab not found") ↔
      ∀ x ∈ ([] : List (Option Tab)), ∃ t, x = some t ∧ ¬ mentions "example.org" t) ∧
    (([] : List (Option Tab)) = [] →
      (chrome0.Find envNoTargets "example.org" world0).1
        = Outcome.ret (none, some "tab not found")) :=
  Find_not_found_iff envNoTargets chrome0 "example.org" world0 "body" [] rfl rfl

/-- C3: for every handle `c` returned by a successful launch and every world `v` in which
it is closed, the first and the second `Close` both return (no panic), and the second leaves
files, removal rights, process table, HTTP state and handler exactly as the first left them;
after the first `Close` the process is not running and a removable profile directory is
gone. -/
theorem Close_idempotent (env : Env) (opts : List (Chrome → Chrome)) (w : World) (c : Chrome)
    (w' : World) (hc : Create env opts w = (Outcome.ret (some c, none), w')) (v : World) :
    ∃ e1 e2 pid, c.process = some pid ∧
      (c.Close v).1 = Outcome.ret e1 ∧ (c.Close (c.Close v).2).1 = Outcome.ret e2 ∧
      (c.Close (c.Close v).2).2.files = (c.Close v).2.files ∧
      (c.Close (c.Close v).2).2.locked = (c.Close v).2.locked ∧
      (c.Close (c.Close v).2).2.procs = (c.Close v).2.procs ∧
      (c.Close (c.Close v).2).2.httpCount = (c.Close v).2.httpCount ∧
      (c.Close (c.Close v).2).2.httpTimeout = (c.Close v).2.httpTimeout ∧
      (c.Close (c.Close v).2).2.handler = (c.Close v).2.handler ∧
      (c.Close v).2.procs.lookup pid ≠ some ProcStatus.running ∧
      (c.dataDir ≠ "" → c.dataDir ∉ v.locked → c.dataDir ∉ (c.Close v).2.files) := by
  obtain ⟨pid, hp, -, -⟩ := Create_ok_inv env opts w c w' hc
  refine ⟨(kill pid v).1, (kill pid (c.Close v).2).1, pid, hp, Close_fst c pid v hp,
    Close_fst c pid _ hp, ?_, ?_, ?_, ?_, ?_, ?_, ?_, ?_⟩
  · simp only [Close_snd c pid _ hp, filesAfterRemove_idem]
  · simp only [Close_snd c pid _ hp]
  · simp only [Close_snd c pid _ hp, procsAfterKill_idem]
  · simp only [Close_snd c pid _ hp]
  · simp only [Close_snd c pid _ hp]
  · simp only [Close_snd c pid _ hp]
  · simp only [Close_snd c pid _ hp]
    exact procsAfterKill_not_running pid v.procs
  · intro h1 h2
    simp only [Close_snd c pid _ hp]
    exact filesAfterRemove_gone _ _ _ h1 h2

/-- C3 on the browser launched by `Create envUp [] world0`, closed twice right after the
launch. -/
theorem Close_idempotent_witness :
    Create envUp [] world0 = (Outcome.ret (some chrome0, none), launched0) ∧
    ∃ e1 e2 pid, chrome0.process = some pid ∧
      (chrome0.Close launched0).1 = Outcome.ret e1 ∧
      (chrome0.Close (chrome0.Close launched0).2).1 = Outcome.ret e2 ∧
      (chrome0.Close (chrome0.Close launched0).2).2.files = (chrome0.Close launched0).2.files ∧
      (chrome0.Close (chrome0.Close launched0).2).2.locked
        = (chrome0.Close launched0).2.locked ∧
      (chrome0.Close (chrome0.Close launched0).2).2.procs = (chrome0.Close launched0).2.procs ∧
      (chrome0.Close (chrome0.Close launched0).2).2.httpCount
        = (chrome0.Close launched0).2.httpCount ∧
      (chrome0.Close (chrome0.Close launched0).2).2.httpTimeout
        = (chrome0.Close launched0).2.httpTimeout ∧
      (chrome0.Close (chrome0.Close launched0).2).2.handler
        = (chrome0.Close launched0).2.handler ∧
      (chrome0.Close launched0).2.procs.lookup pid ≠ some ProcStatus.running ∧
      (chrome0.dataDir ≠ "" → chrome0.dataDir ∉ launched0.locked →
        chrome0.dataDir ∉ (chrome0.Close launched0).2.files) :=
  ⟨by rfl, Close_idempotent envUp [] world0 chrome0 launched0 (by rfl) launched0⟩

/-- C4: whatever `os.RemoveAll` answers, `Close` goes on to `Kill` (its effects are the
removal followed by the kill), the error it returns is the result of that kill, which is the
same as killing without any removal, and a failed removal together with a successful kill
gives no error. -/
theorem Close_returns_kill_result (c : Chrome) (pid : Nat) (w : World)
    (hp : c.process = some pid) :
    (c.Close w).1 = Outcome.ret (kill pid (removeAll c.dataDir w).2).1 ∧
    (c.Close w).1 = Outcome.ret (kill pid w).1 ∧
    (c.Close w).2.trace = w.trace ++ [Effect.removeAll c.dataDir, Effect.kill pid] ∧
    (∀ e, (removeAll c.dataDir w).1 = some e → w.procs.lookup pid = some ProcStatus.running →
      (c.Close w).1 = Outcome.ret none) := by
  refine ⟨?_, Close_fst c pid w hp, ?_, ?_⟩
  · unfold Chrome.Close
    rw [hp]
  · rw [Close_snd c pid w hp]
  · intro e _ hrun
    rw [Close_fst c pid w hp]
    unfold kill
    simp [hrun]

/-- C4 on a launched browser whose profile directory cannot be removed: the removal fails,
the kill succeeds and `Close` returns no error. -/
theorem Close_returns_kill_result_witness :
    chrome0.process = some 42 ∧
    (removeAll chrome0.dataDir launchedLocked).1
      = some "unlinkat /tmp/chr-profile: permission denied" ∧
    (chrome0.Close launchedLocked).1 = Outcome.ret none ∧
    (chrome0.Close launchedLocked).1
      = Outcome.ret (kill 42 (removeAll chrome0.dataDir launchedLocked).2).1 :=
  ⟨rfl, by decide,
    (Close_returns_kill_result chrome0 42 launchedLocked rfl).2.2.2
      "unlinkat /tmp/chr-profile: permission denied" (by decide) (by decide),
    (Close_returns_kill_result chrome0 42 launchedLocked rfl).1⟩

/-- C5 as stated fails: the browser binary exists and starts, the discovery endpoint
refuses the first request and answers the second and every later one, yet `Create` returns
the error of the first request and no handle, after a single request. -/
theorem Create_no_second_probe :
    statOk world0 (resolve envSlow [] world0).1.bin = true ∧
    envSlow.start "/usr/bin/chromium"
      ["--remote-debugging-port=9222", "--user-data-dir=/tmp/chr-profile"] = Except.ok 42 ∧
    (∀ n, 0 < n → envSlow.httpGet n (5 * second) "http://127.0.0.1:9222" = Except.ok "body") ∧
    (Create envSlow [] world0).1
      = Outcome.ret (none, some "dial tcp 127.0.0.1:9222: connect: connection refused") ∧
    requests (Create envSlow [] world0).2.trace = ["http://127.0.0.1:9222"] := by
  refine ⟨by decide, rfl, ?_, by decide, by decide⟩
  intro n hn
  have : n ≠ 0 := Nat.pos_iff_ne_zero.mp hn
  simp [envSlow, this]

/-- C5, amended: a launch whose binary exists and starts makes exactly one request to the
discovery endpoint, under the configured timeout; `Create` returns the handle and no error
when that request is answered, and the error of that request and no handle when it
fails. -/
theorem Create_single_probe (env : Env) (opts : List (Chrome → Chrome)) (w : World)
    (port : String) (pid : Nat)
    (hbin : statOk w (resolve env opts w).1.bin = true)
    (hport : (stringsSplit (resolve env opts w).1.remoteAddr ':')[1]? = some port)
    (hstart : env.start (resolve env opts w).1.bin
      ["--remote-debugging-port=" ++ port,
       "--user-data-dir=" ++ (resolve env opts w).1.dataDir] = Except.ok pid) :
    requests (Create env opts w).2.trace = requests w.trace ++ ["http://127.0.0.1:9222"] ∧
    (Create env opts w).2.httpCount = w.httpCount + 1 ∧
    (∀ body, env.httpGet w.httpCount (resolve env opts w).1.timeout "http://127.0.0.1:9222"
        = Except.ok body →
      (Create env opts w).1
        = Outcome.ret (some { (resolve env opts w).1 with process := some pid }, none)) ∧
    (∀ e, env.httpGet w.httpCount (resolve env opts w).1.timeout "http://127.0.0.1:9222"
        = Except.error e →
      (Create env opts w).1 = Outcome.ret (none, some e)) := by
  obtain ⟨paths, hp⟩ := resolve_snd env opts w
  have hbin2 : statOk (resolve env opts w).2 (resolve env opts w).1.bin = true := by
    rw [statOk_resolve]; exact hbin
  have hcount : (resolve env opts w).2.httpCount = w.httpCount := by rw [hp]
  have hreq : requests (resolve env opts w).2.trace = requests w.trace := by
    rw [hp]; simp [requests_append, requests_stats]
  unfold Create
  simp only [hbin2, hport, hstart, httpGet, World.log, hcount]
  cases hget : env.httpGet w.httpCount (resolve env opts w).1.timeout "http://127.0.0.1:9222"
    <;> simp [requests_append, requests, hreq, hcount]

/-- C5, amended, on a browser that answers the first request. -/
theorem Create_single_probe_witness :
    statOk world0 (resolve envUp [] world0).1.bin = true ∧
    requests (Create envUp [] world0).2.trace = requests world0.trace ++ ["http://127.0.0.1:9222"] ∧
    (Create envUp [] world0).1 = Outcome.ret (some chrome0, none) :=
  ⟨by decide,
   (Create_single_probe envUp [] world0 "9222" 42 (by decide) (by decide) rfl).1,
   (Create_single_probe envUp [] world0 "9222" 42 (by decide) (by decide) rfl).2.2.1 "body" rfl⟩

/-- C6: if the binary path resolved from the options and the default search is empty or
names no existing file, `Create` returns no handle and the error `Chrome not found `, and
the world differs from the initial one only by `os.Stat` calls in the trace: no process is
started, no request is made, no handler is installed. -/
theorem Create_binary_missing (env : Env) (opts : List (Chrome → Chrome)) (w : World)
    (h : (resolve env opts w).1.bin = "" ∨ statOk w (resolve env opts w).1.bin = false) :
    (Create env opts w).1 = Outcome.ret (none, some "Chrome not found ") ∧
    ∃ paths : List String, (Create env opts w).2 = { w with trace := w.trace ++ paths.map Effect.stat } := by
  have h2 : statOk (resolve env opts w).2 (resolve env opts w).1.bin = false := by
    rw [statOk_resolve]
    rcases h with h | h
    · rw [h]; rfl
    · exact h
  obtain ⟨paths, hp⟩ := resolve_snd env opts w
  unfold Create
  simp only [h2, Bool.not_false, if_true, true_and]
  exact ⟨paths ++ [(resolve env opts w).1.bin], by simp [hp, World.log]⟩

/-- C6 on a machine without any browser binary: nothing is resolved, and `Create` fails
with `Chrome not found ` after two `os.Stat` calls of the default search and the final
one. -/
theorem Create_binary_missing_witness :
    ((resolve envUp [] worldBare).1.bin = "" ∨
      statOk worldBare (resolve envUp [] worldBare).1.bin = false) ∧
    (Create envUp [] worldBare).1 = Outcome.ret (none, some "Chrome not found ") ∧
    ∃ paths : List String, (Create envUp [] worldBare).2
      = { worldBare with trace := worldBare.trace ++ paths.map Effect.stat } :=
  ⟨Or.inl (by decide), Create_binary_missing envUp [] worldBare (Or.inl (by decide))⟩

/-- C7 as stated fails: on the launched browser `chrome0`, the caller's `Close` completes,
then a signal arrives, and the handler receives it and runs `Close` a second time; when the
killed process has been reaped in between, that second `Close` returns the error
`os: process already finished`, which the handler logs. -/
theorem handler_fires_after_Close :
    Create envUp [] world0 = (Outcome.ret (some chrome0, none), launched0) ∧
    (run chrome0 launched0 [Event.callerClose]).trace
      = launched0.trace ++ [Effect.removeAll "/tmp/chr-profile", Effect.kill 42] ∧
    (run chrome0 launched0 [Event.callerClose, Event.signal]).trace
      = launched0.trace ++ [Effect.removeAll "/tmp/chr-profile", Effect.kill 42,
          Effect.signalReceived, Effect.removeAll "/tmp/chr-profile", Effect.kill 42] ∧
    (run chrome0 launched0 [Event.callerClose, Event.waited, Event.signal]).trace
      = launched0.trace ++ [Effect.removeAll "/tmp/chr-profile", Effect.kill 42,
          Effect.signalReceived, Effect.removeAll "/tmp/chr-profile", Effect.kill 42,
          Effect.logged "os: process already finished"] := by
  refine ⟨by rfl, by decide, by decide, by decide⟩

/-- C7, amended: on a handle returned by a successful launch with process `pid`, in every
sequence of events the number of `Close` calls made (counted by their removals of the
profile directory and by their kills of `pid`) is the number of `Close` calls of the caller
plus one if a signal occurs and plus none otherwise, so the handler calls `Close` exactly
once if a signal occurs and never otherwise; the handler receives exactly one signal; at the
first signal, whatever `Close` calls of the caller came before, the trace continues with
exactly the receive, the removal, the kill and the log of the error of that `Close`, if any;
and a signal after the first changes nothing. -/
theorem handler_fires_once (env : Env) (opts : List (Chrome → Chrome)) (w : World)
    (c : Chrome) (w' : World) (hc : Create env opts w = (Outcome.ret (some c, none), w'))
    (evs : List Event) :
    ∃ pid, c.process = some pid ∧
      (run c w' evs).trace.count (Effect.kill pid)
        = w'.trace.count (Effect.kill pid) + evs.count Event.callerClose
          + (if Event.signal ∈ evs then 1 else 0) ∧
      (run c w' evs).trace.count (Effect.removeAll c.dataDir)
        = w'.trace.count (Effect.removeAll c.dataDir) + evs.count Event.callerClose
          + (if Event.signal ∈ evs then 1 else 0) ∧
      signalsHandled (run c w' evs).trace
        = signalsHandled w'.trace + (if Event.signal ∈ evs then 1 else 0) ∧
      (Event.signal ∉ evs →
        (run c w' (evs ++ [Event.signal])).trace
          = (run c w' evs).trace
            ++ [Effect.signalReceived, Effect.removeAll c.dataDir, Effect.kill pid]
            ++ handlerLog (c.Close (run c w' evs)).1) ∧
      (Event.signal ∈ evs → run c w' (evs ++ [Event.signal]) = run c w' evs) := by
  obtain ⟨pid, hp, hh, -⟩ := Create_ok_inv env opts w c w' hc
  have hlast : run c w' (evs ++ [Event.signal]) = step c (run c w' evs) Event.signal := by
    simp [run, List.foldl_append]
  refine ⟨pid, hp, run_count_armed c pid _ evs w' hp (Or.inl rfl) hh,
    run_count_armed c pid _ evs w' hp (Or.inr rfl) hh, run_armed c c evs w' hh, ?_, ?_⟩
  · intro hpre
    have hk : (run c w' evs).handler = some c := by rw [run_handler_kept c evs w' hpre, hh]
    rw [hlast, step_signal_exact c c pid (run c w' evs) hk hp]
  · intro hs
    have hk : (run c w' evs).handler = none := run_handler_gone c c evs w' hh hs
    rw [hlast]
    simp [step, hk]

/-- C7, amended, on the launched browser `chrome0` when the caller closes, the process is
reaped and two signals follow: two kills in all, one of them by the handler. -/
theorem handler_fires_once_witness :
    Create envUp [] world0 = (Outcome.ret (some chrome0, none), launched0) ∧
    ∃ pid, chrome0.process = some pid ∧
      (run chrome0 launched0
          [Event.callerClose, Event.waited, Event.signal, Event.signal]).trace.count
          (Effect.kill pid)
        = launched0.trace.count (Effect.kill pid)
          + [Event.callerClose, Event.waited, Event.signal, Event.signal].count
              Event.callerClose
          + (if Event.signal ∈ [Event.callerClose, Event.waited, Event.signal, Event.signal]
              then 1 else 0) :=
  ⟨by rfl,
   (handler_fires_once envUp [] world0 chrome0 launched0 (by rfl)
     [Event.callerClose, Event.waited, Event.signal, Event.signal]).imp
     fun _ h => ⟨h.1, h.2.1⟩⟩

/-- C8: `Open` makes exactly one HTTP request, to `http://` + debug address + `/json/new?`
+ the requested url, and `Find` makes exactly one, to `http://` + debug address + `/json`,
whatever the endpoint, the decoder and the dialer answer. -/
theorem discovery_requests (env : Env) (c : Chrome) (url kw : String) (w : World) :
    requests (c.Open env url w).2.trace
      = requests w.trace ++ ["http://" ++ c.remoteAddr ++ "/json/new?" ++ url] ∧
    requests (c.Find env kw w).2.trace
      = requests w.trace ++ ["http://" ++ c.remoteAddr ++ "/json"] := by
  constructor
  · unfold Chrome.Open httpGet
    cases env.httpGet w.httpCount w.httpTimeout ("http://" ++ c.remoteAddr ++ "/json/new?" ++ url)
      with
    | error e => simp [requests_append, requests]
    | ok body =>
      cases hdec : env.decodeTab body with
      | error e => simp [hdec, requests_append, requests, World.log]
      | ok o =>
        cases o with
        | none => simp [hdec, requests_append, requests, World.log]
        | some tab =>
          simp only [hdec, newTab]
          cases env.dial tab.WebSocketDebuggerUrl <;>
            simp [requests_append, requests, World.log, queueEffects]
  · unfold Chrome.Find httpGet
    cases env.httpGet w.httpCount w.httpTimeout ("http://" ++ c.remoteAddr ++ "/json") with
    | error e => simp [requests_append, requests]
    | ok body =>
      cases hdec : env.decodeTabs body with
      | error e => simp [hdec, requests_append, requests, World.log]
      | ok tabs =>
        simp only [hdec]
        cases findLoop kw tabs with
        | panic => simp [requests_append, requests, World.log]
        | ret o => cases o <;> simp [requests_append, requests, World.log, queueEffects]

/-- C9: when the dial succeeds with socket `conn`, `newTab` performs, in this order and
nothing else: the dial, the creation of the three empty queues, one `Send` of `DOM.enable`
and one of `Page.enable`, both with empty parameters, and one start of the read loop; it
returns the connection and no error whatever `Send` answers. -/
theorem newTab_open_sequence (env : Env) (tab : Tab) (w : World) (conn : Nat)
    (hd : env.dial tab.WebSocketDebuggerUrl = Except.ok conn) :
    (newTab env tab w).2.trace = w.trace ++
      [Effect.dial tab.WebSocketDebuggerUrl,
       Effect.makeQueue Queue.events 1024, Effect.makeQueue Queue.returns 1024,
       Effect.makeQueue Queue.errors 1024,
       Effect.send "DOM.enable" [], Effect.send "Page.enable" [], Effect.goHandle] ∧
    (newTab env tab w).1 =
      (some (env.send (env.send
        { tab with Ipc := { Conn := some conn, events := some { cap := 1024, buf := [] },
                            returns := some { cap := 1024, buf := [] },
                            errors := some { cap := 1024, buf := [] } } }
        "DOM.enable" []).1 "Page.enable" []).1, none) := by
  unfold newTab
  simp [hd, World.log, queueEffects, domEnable, pageEnable, makeChan]

/-- C9 on a target whose dial gives socket 7. -/
theorem newTab_open_sequence_witness :
    envUp.dial (descriptor "E5" "" "about:blank").WebSocketDebuggerUrl = Except.ok 7 ∧
    (newTab envUp (descriptor "E5" "" "about:blank") world0).2.trace =
      [Effect.dial "ws://127.0.0.1:9222/devtools/page/E5",
       Effect.makeQueue Queue.events 1024, Effect.makeQueue Queue.returns 1024,
       Effect.makeQueue Queue.errors 1024,
       Effect.send "DOM.enable" [], Effect.send "Page.enable" [], Effect.goHandle] :=
  ⟨rfl, (newTab_open_sequence envUp (descriptor "E5" "" "about:blank") world0 7 rfl).1⟩

/-- C10: when the dial of a target fails with error `e`, `newTab` returns `e` and no
connection and its only effect is the dial; `Open` on a created target with that
descriptor returns the same, its effects being the request, the dial and the closing of the
response body: no queue is made, nothing is sent, no read loop is started. -/
theorem newTab_dial_failure (env : Env) (tab : Tab) (w : World) (e : String)
    (hd : env.dial tab.WebSocketDebuggerUrl = Except.error e) :
    newTab env tab w = ((none, some e), w.log (Effect.dial tab.WebSocketDebuggerUrl)) ∧
    ∀ (c : Chrome) (url body : String),
      env.httpGet w.httpCount w.httpTimeout ("http://" ++ c.remoteAddr ++ "/json/new?" ++ url)
        = Except.ok body →
      env.decodeTab body = Except.ok (some tab) →
      (c.Open env url w).1 = Outcome.ret (none, some e) ∧
      (c.Open env url w).2.trace = w.trace ++
        [Effect.httpGet ("http://" ++ c.remoteAddr ++ "/json/new?" ++ url),
         Effect.dial tab.WebSocketDebuggerUrl, Effect.closeBody] := by
  have h1 : newTab env tab w
      = ((none, some e), w.log (Effect.dial tab.WebSocketDebuggerUrl)) := by
    unfold newTab
    simp [hd]
  refine ⟨h1, ?_⟩
  intro c url body hget hdec
  unfold Chrome.Open httpGet
  simp only [hget, hdec]
  unfold newTab
  simp [hd, World.log]

/-- C10 on a target whose socket handshake fails. -/
theorem newTab_dial_failure_witness :
    envNoDial.dial (descriptor "E5" "" "about:blank").WebSocketDebuggerUrl
      = Except.error "websocket: bad handshake" ∧
    newTab envNoDial (descriptor "E5" "" "about:blank") world0
      = ((none, some "websocket: bad handshake"),
         world0.log (Effect.dial "ws://127.0.0.1:9222/devtools/page/E5")) ∧
    (chrome0.Open envNoDial "about:blank" world0).1
      = Outcome.ret (none, some "websocket: bad handshake") :=
  ⟨rfl,
   (newTab_dial_failure envNoDial (descriptor "E5" "" "about:blank") world0
     "websocket: bad handshake" rfl).1,
   ((newTab_dial_failure envNoDial (descriptor "E5" "" "about:blank") world0
     "websocket: bad handshake" rfl).2 chrome0 "about:blank" "body" rfl rfl).1⟩

/-! ## The port of the debug address -/

theorem splitChars_head (sep : Char) (s : List Char) :
    (splitChars sep s)[0]? = some (s.takeWhile (fun a => a != sep)) := by
  induction s with
  | nil => rfl
  | cons a s ih =>
    unfold splitChars
    by_cases h : a = sep
    · simp [h]
    · rw [if_neg h]
      cases hs : splitChars sep s with
      | nil => rw [hs] at ih; simp at ih
      | cons x t =>
        rw [hs] at ih
        simp only [List.getElem?_cons_zero, Option.some.injEq] at ih
        simp [h, ih]

theorem splitChars_one (sep : Char) (s : List Char) :
    (splitChars sep s)[1]? = if sep ∈ s then some (portText sep s) else none := by
  induction s with
  | nil => rfl
  | cons a s ih =>
    unfold splitChars
    by_cases h : a = sep
    · subst h
      simp [portText, splitChars_head]
    · rw [if_neg h]
      have hne : ¬ sep = a := fun h2 => h h2.symm
      have hb : (a != sep) = true := by simpa using h
      have hport : portText sep (a :: s) = portText sep s := by
        unfold portText
        rw [List.dropWhile_cons_of_pos (p := fun a => a != sep) hb]
      have hrhs : (if sep ∈ a :: s then some (portText sep (a :: s)) else none)
          = if sep ∈ s then some (portText sep s) else none := by
        rw [hport]
        by_cases hm : sep ∈ s
        · rw [if_pos hm, if_pos (List.mem_cons_of_mem _ hm)]
        · rw [if_neg hm, if_neg]
          intro hm2
          rcases List.mem_cons.mp hm2 with h3 | h3
          · exact hne h3
          · exact hm h3
      rw [hrhs, ← ih]
      cases hs : splitChars sep s with
      | nil =>
        have := splitChars_head sep s
        rw [hs] at this
        simp at this
      | cons x t => simp

theorem stringsSplit_one (addr : String) :
    (stringsSplit addr ':')[1]?
      = if ':' ∈ addr.data then some (String.mk (portText ':' addr.data)) else none := by
  unfold stringsSplit
  rw [List.getElem?_map, splitChars_one]
  split_ifs <;> rfl

theorem resolve_remoteAddr (env : Env) (opts : List (Chrome → Chrome)) (w : World) :
    (resolve env opts w).1.remoteAddr
      = if (opts.foldl (fun c opt => opt c) (Chrome.mk "" "" "" none 0)).remoteAddr = ""
        then "127.0.0.1:9222"
        else (opts.foldl (fun c opt => opt c) (Chrome.mk "" "" "" none 0)).remoteAddr := by
  unfold resolve
  simp only []
  split_ifs <;> (try split) <;> simp_all
theorem Create_past_stat (env : Env) (opts : List (Chrome → Chrome)) (w : World)
    (port : String) (hbin : statOk w (resolve env opts w).1.bin = true)
    (hport : (stringsSplit (resolve env opts w).1.remoteAddr ':')[1]? = some port) :
    (Create env opts w).1 ≠ Outcome.panic ∧
    ∃ rest, (Create env opts w).2.trace = (resolve env opts w).2.trace ++
      [Effect.stat (resolve env opts w).1.bin,
       Effect.start (resolve env opts w).1.bin
        ["--remote-debugging-port=" ++ port,
         "--user-data-dir=" ++ (resolve env opts w).1.dataDir]] ++ rest ∧
      (requests rest = [] ∨ requests rest = ["http://127.0.0.1:9222"]) := by
  have hbin2 : statOk (resolve env opts w).2 (resolve env opts w).1.bin = true := by
    rw [statOk_resolve]; exact hbin
  unfold Create
  simp only [hbin2, hport, httpGet, World.log]
  cases env.start (resolve env opts w).1.bin
      ["--remote-debugging-port=" ++ port,
       "--user-data-dir=" ++ (resolve env opts w).1.dataDir] with
  | error e => exact ⟨by simp, [], by simp, Or.inl rfl⟩
  | ok pid =>
    simp only []
    cases env.httpGet (resolve env opts w).2.httpCount (resolve env opts w).1.timeout
        "http://127.0.0.1:9222" with
    | error e =>
      exact ⟨by simp, [Effect.setTimeout (resolve env opts w).1.timeout,
        Effect.httpGet "http://127.0.0.1:9222"], by simp, Or.inr rfl⟩
    | ok body =>
      exact ⟨by simp, [Effect.setTimeout (resolve env opts w).1.timeout,
        Effect.httpGet "http://127.0.0.1:9222", Effect.closeBody, Effect.notify],
        by simp, Or.inr rfl⟩

theorem Create_no_port (env : Env) (opts : List (Chrome → Chrome)) (w : World)
    (hbin : statOk w (resolve env opts w).1.bin = true)
    (hport : (stringsSplit (resolve env opts w).1.remoteAddr ':')[1]? = none) :
    (Create env opts w).1 = Outcome.panic ∧
    ∃ paths : List String,
      (Create env opts w).2 = { w with trace := w.trace ++ paths.map Effect.stat } := by
  have hbin2 : statOk (resolve env opts w).2 (resolve env opts w).1.bin = true := by
    rw [statOk_resolve]; exact hbin
  obtain ⟨paths, hp⟩ := resolve_snd env opts w
  unfold Create
  simp only [hbin2, hport]
  exact ⟨by simp, paths ++ [(resolve env opts w).1.bin], by simp [hp, World.log]⟩

/-- C12: for a launch whose binary exists, `Create` panics exactly when the resolved debug
address has no colon, and then it has done nothing but `os.Stat` calls (no process is
started); when the address has a colon the process is started with the flag
`--remote-debugging-port=` followed by the text between the first colon and the next colon
or the end; with no address configured that flag is `--remote-debugging-port=9222`. -/
theorem Create_port_extraction (env : Env) (opts : List (Chrome → Chrome)) (w : World)
    (hbin : statOk w (resolve env opts w).1.bin = true) :
    ((Create env opts w).1 = Outcome.panic ↔ ':' ∉ (resolve env opts w).1.remoteAddr.data) ∧
    (':' ∉ (resolve env opts w).1.remoteAddr.data →
      ∃ paths : List String,
        (Create env opts w).2 = { w with trace := w.trace ++ paths.map Effect.stat }) ∧
    (':' ∈ (resolve env opts w).1.remoteAddr.data →
      Effect.start (resolve env opts w).1.bin
        ["--remote-debugging-port="
          ++ String.mk (portText ':' (resolve env opts w).1.remoteAddr.data),
         "--user-data-dir=" ++ (resolve env opts w).1.dataDir] ∈ (Create env opts w).2.trace) ∧
    ((opts.foldl (fun c opt => opt c) (Chrome.mk "" "" "" none 0)).remoteAddr = "" →
      ':' ∈ (resolve env opts w).1.remoteAddr.data ∧
      "--remote-debugging-port="
          ++ String.mk (portText ':' (resolve env opts w).1.remoteAddr.data)
        = "--remote-debugging-port=9222") := by
  have hsplit := stringsSplit_one (resolve env opts w).1.remoteAddr
  have hyes : ':' ∈ (resolve env opts w).1.remoteAddr.data →
      (Create env opts w).1 ≠ Outcome.panic ∧
      Effect.start (resolve env opts w).1.bin
        ["--remote-debugging-port="
          ++ String.mk (portText ':' (resolve env opts w).1.remoteAddr.data),
         "--user-data-dir=" ++ (resolve env opts w).1.dataDir] ∈ (Create env opts w).2.trace := by
    intro hc
    rw [if_pos hc] at hsplit
    obtain ⟨h1, rest, h2, -⟩ := Create_past_stat env opts w _ hbin hsplit
    refine ⟨h1, ?_⟩
    rw [h2]
    simp
  have hno : ':' ∉ (resolve env opts w).1.remoteAddr.data →
      (Create env opts w).1 = Outcome.panic ∧
      ∃ paths : List String,
        (Create env opts w).2 = { w with trace := w.trace ++ paths.map Effect.stat } := by
    intro hc
    rw [if_neg hc] at hsplit
    exact Create_no_port env opts w hbin hsplit
  refine ⟨?_, fun hc => (hno hc).2, fun hc => (hyes hc).2, ?_⟩
  · constructor
    · intro hp hc
      exact (hyes hc).1 hp
    · intro hc
      exact (hno hc).1
  · intro hd
    rw [resolve_remoteAddr, if_pos hd]
    exact ⟨by decide, by decide⟩

/-- C12 on a machine with chromium installed and the debug address `localhost`, which has
no colon: `Create` panics and no process is started. -/
theorem Create_port_extraction_witness :
    statOk world0 (resolve envUp [withAddr "localhost"] world0).1.bin = true ∧
    (Create envUp [withAddr "localhost"] world0).1 = Outcome.panic ∧
    (Create envUp [withAddr "localhost"] world0).2.procs = [] :=
  ⟨by decide,
   (Create_port_extraction envUp [withAddr "localhost"] world0 (by decide)).1.mpr (by decide),
   by decide⟩

/-! ## The readiness probe -/

theorem Create_requests (env : Env) (opts : List (Chrome → Chrome)) (w : World) :
    requests (Create env opts w).2.trace = requests w.trace ∨
    requests (Create env opts w).2.trace = requests w.trace ++ ["http://127.0.0.1:9222"] := by
  obtain ⟨paths, hp⟩ := resolve_snd env opts w
  have hres : requests (resolve env opts w).2.trace = requests w.trace := by
    rw [hp]; simp [requests_append, requests_stats]
  cases hbin : statOk w (resolve env opts w).1.bin with
  | false =>
    have hbin2 : statOk (resolve env opts w).2 (resolve env opts w).1.bin = false := by
      rw [statOk_resolve]; exact hbin
    left
    unfold Create
    simp [hbin2, World.log, requests_append, requests, hres]
  | true =>
    cases hport : (stringsSplit (resolve env opts w).1.remoteAddr ':')[1]? with
    | none =>
      obtain ⟨-, paths2, h2⟩ := Create_no_port env opts w hbin hport
      left
      rw [h2]
      simp [requests_append, requests_stats]
    | some port =>
      obtain ⟨-, rest, h2, h3⟩ := Create_past_stat env opts w port hbin hport
      rw [h2]
      rcases h3 with h3 | h3
      · left; simp [requests_append, requests, hres, h3]
      · right; simp [requests_append, requests, hres, h3]

theorem Create_started_requests (env : Env) (opts : List (Chrome → Chrome)) (w : World)
    (port : String) (pid : Nat)
    (hbin : statOk w (resolve env opts w).1.bin = true)
    (hport : (stringsSplit (resolve env opts w).1.remoteAddr ':')[1]? = some port)
    (hstart : env.start (resolve env opts w).1.bin
      ["--remote-debugging-port=" ++ port,
       "--user-data-dir=" ++ (resolve env opts w).1.dataDir] = Except.ok pid) :
    requests (Create env opts w).2.trace = requests w.trace ++ ["http://127.0.0.1:9222"] := by
  obtain ⟨paths, hp⟩ := resolve_snd env opts w
  have hbin2 : statOk (resolve env opts w).2 (resolve env opts w).1.bin = true := by
    rw [statOk_resolve]; exact hbin
  have hcount : (resolve env opts w).2.httpCount = w.httpCount := by rw [hp]
  have hreq : requests (resolve env opts w).2.trace = requests w.trace := by
    rw [hp]; simp [requests_append, requests_stats]
  unfold Create
  simp only [hbin2, hport, hstart, httpGet, World.log, hcount]
  cases hget : env.httpGet w.httpCount (resolve env opts w).1.timeout "http://127.0.0.1:9222"
    <;> simp [requests_append, requests, hreq]

theorem launches_append (xs ys : List Effect) :
    launches (xs ++ ys) = launches xs ++ launches ys := by
  induction xs with
  | nil => rfl
  | cons x xs ih => cases x <;> simp [launches, ih]

theorem launches_stats (paths : List String) : launches (paths.map Effect.stat) = [] := by
  induction paths with
  | nil => rfl
  | cons p ps ih => simpa [launches] using ih

theorem Create_started_launches (env : Env) (opts : List (Chrome → Chrome)) (w : World)
    (port : String) (pid : Nat)
    (hbin : statOk w (resolve env opts w).1.bin = true)
    (hport : (stringsSplit (resolve env opts w).1.remoteAddr ':')[1]? = some port)
    (hstart : env.start (resolve env opts w).1.bin
      ["--remote-debugging-port=" ++ port,
       "--user-data-dir=" ++ (resolve env opts w).1.dataDir] = Except.ok pid) :
    launches (Create env opts w).2.trace = launches w.trace ++
      [((resolve env opts w).1.bin,
        ["--remote-debugging-port=" ++ port,
         "--user-data-dir=" ++ (resolve env opts w).1.dataDir])] := by
  obtain ⟨paths, hp⟩ := resolve_snd env opts w
  have hbin2 : statOk (resolve env opts w).2 (resolve env opts w).1.bin = true := by
    rw [statOk_resolve]; exact hbin
  have hl : launches (resolve env opts w).2.trace = launches w.trace := by
    rw [hp]; simp [launches_append, launches_stats]
  unfold Create
  simp only [hbin2, hport, hstart, httpGet, World.log]
  cases env.httpGet (resolve env opts w).2.httpCount (resolve env opts w).1.timeout
      "http://127.0.0.1:9222"
    <;> simp [launches_append, launches, hl]

theorem string_append_cancel (a b c : String) : a ++ b = a ++ c ↔ b = c := by
  constructor
  · intro h
    have h2 : (a ++ b).data = (a ++ c).data := by rw [h]
    rw [String.data_append, String.data_append] at h2
    exact String.ext (List.append_cancel_left h2)
  · intro h
    rw [h]

/-- C13 as stated fails in its last part: with the debug address `localhost:9222`, which is
not `127.0.0.1:9222`, `Create` does exactly what it does with the default address: the
browser is started with port 9222 and the probe to `http://127.0.0.1:9222` targets it. -/
theorem probe_hits_other_remoteAddr :
    (resolve envUp [withAddr "localhost:9222"] world0).1.remoteAddr = "localhost:9222" ∧
    (resolve envUp [withAddr "localhost:9222"] world0).1.remoteAddr ≠ "127.0.0.1:9222" ∧
    (Create envUp [withAddr "localhost:9222"] world0).2.trace
      = (Create envUp [] world0).2.trace ∧
    launches (Create envUp [withAddr "localhost:9222"] world0).2.trace
      = [("/usr/bin/chromium",
          ["--remote-debugging-port=9222", "--user-data-dir=/tmp/chr-profile"])] ∧
    requests (Create envUp [withAddr "localhost:9222"] world0).2.trace
      = ["http://127.0.0.1:9222"] :=
  ⟨by decide, by decide, by decide, by decide, by decide⟩

/-- C13, amended: whatever the options, `Create` makes at most one request and that request
goes to the fixed url `http://127.0.0.1:9222`; a launch that gets as far as starting the
browser makes exactly that request, while the browser is started once, with the port flag
made of the second colon-separated field of `remoteAddr`; so any two configurations that
start the browser send the same probe; and the browser is started on the probed port 9222
exactly when that field of `remoteAddr` is `9222`, whatever the host part. -/
theorem probe_ignores_remoteAddr (env : Env) (opts : List (Chrome → Chrome)) (w : World) :
    (requests (Create env opts w).2.trace = requests w.trace ∨
      requests (Create env opts w).2.trace = requests w.trace ++ ["http://127.0.0.1:9222"]) ∧
    (∀ (port : String) (pid : Nat),
      statOk w (resolve env opts w).1.bin = true →
      (stringsSplit (resolve env opts w).1.remoteAddr ':')[1]? = some port →
      env.start (resolve env opts w).1.bin
        ["--remote-debugging-port=" ++ port,
         "--user-data-dir=" ++ (resolve env opts w).1.dataDir] = Except.ok pid →
      requests (Create env opts w).2.trace = requests w.trace ++ ["http://127.0.0.1:9222"] ∧
      port = String.mk (portText ':' (resolve env opts w).1.remoteAddr.data) ∧
      Effect.start (resolve env opts w).1.bin
        ["--remote-debugging-port=" ++ port,
         "--user-data-dir=" ++ (resolve env opts w).1.dataDir] ∈ (Create env opts w).2.trace ∧
      (∀ (opts2 : List (Chrome → Chrome)) (port2 : String) (pid2 : Nat),
        statOk w (resolve env opts2 w).1.bin = true →
        (stringsSplit (resolve env opts2 w).1.remoteAddr ':')[1]? = some port2 →
        env.start (resolve env opts2 w).1.bin
          ["--remote-debugging-port=" ++ port2,
           "--user-data-dir=" ++ (resolve env opts2 w).1.dataDir] = Except.ok pid2 →
        requests (Create env opts2 w).2.trace = requests (Create env opts w).2.trace) ∧
      launches (Create env opts w).2.trace = launches w.trace ++
        [((resolve env opts w).1.bin,
          ["--remote-debugging-port=" ++ port,
           "--user-data-dir=" ++ (resolve env opts w).1.dataDir])] ∧
      (launches (Create env opts w).2.trace = launches w.trace ++
          [((resolve env opts w).1.bin,
            ["--remote-debugging-port=9222",
             "--user-data-dir=" ++ (resolve env opts w).1.dataDir])] ↔
        String.mk (portText ':' (resolve env opts w).1.remoteAddr.data) = "9222")) := by
  refine ⟨Create_requests env opts w, ?_⟩
  intro port pid hbin hport hstart
  have h1 := Create_started_requests env opts w port pid hbin hport hstart
  have hl := Create_started_launches env opts w port pid hbin hport hstart
  have hportText : port = String.mk (portText ':' (resolve env opts w).1.remoteAddr.data) := by
    have hs := stringsSplit_one (resolve env opts w).1.remoteAddr
    rw [hport] at hs
    split_ifs at hs with hc
    · exact Option.some.inj hs
  refine ⟨h1, hportText, ?_, ?_, hl, ?_⟩
  · obtain ⟨-, rest, h2, -⟩ := Create_past_stat env opts w port hbin hport
    rw [h2]
    simp
  · intro opts2 port2 pid2 hbin2 hport2 hstart2
    rw [h1, Create_started_requests env opts2 w port2 pid2 hbin2 hport2 hstart2]
  · rw [hl, ← hportText]
    have h9 : ("--remote-debugging-port=9222" : String) = "--remote-debugging-port=" ++ "9222" :=
      by decide
    rw [h9]
    constructor
    · intro h
      have h2 := List.append_cancel_left h
      simp only [List.cons.injEq, Prod.mk.injEq, and_true, true_and] at h2
      exact (string_append_cancel _ _ _).mp h2
    · intro h
      rw [h]

/-- C13, amended, on two launches that differ only in the debug address, the default one
and `127.0.0.1:9333`: the second browser is started on port 9333, not on the probed port,
and both launches probe `http://127.0.0.1:9222`. -/
theorem probe_ignores_remoteAddr_witness :
    statOk world0 (resolve envUp [withAddr "127.0.0.1:9333"] world0).1.bin = true ∧
    (stringsSplit (resolve envUp [withAddr "127.0.0.1:9333"] world0).1.remoteAddr ':')[1]?
      = some "9333" ∧
    requests (Create envUp [withAddr "127.0.0.1:9333"] world0).2.trace
      = ["http://127.0.0.1:9222"] ∧
    requests (Create envUp [] world0).2.trace
      = requests (Create envUp [withAddr "127.0.0.1:9333"] world0).2.trace ∧
    launches (Create envUp [withAddr "127.0.0.1:9333"] world0).2.trace
      = [("/usr/bin/chromium",
          ["--remote-debugging-port=9333", "--user-data-dir=/tmp/chr-profile"])] ∧
    ¬ launches (Create envUp [withAddr "127.0.0.1:9333"] world0).2.trace
      = launches world0.trace ++ [((resolve envUp [withAddr "127.0.0.1:9333"] world0).1.bin,
          ["--remote-debugging-port=9222",
           "--user-data-dir="
            ++ (resolve envUp [withAddr "127.0.0.1:9333"] world0).1.dataDir])] :=
  ⟨by decide, by decide,
   ((probe_ignores_remoteAddr envUp [withAddr "127.0.0.1:9333"] world0).2 "9333" 42
      (by decide) (by decide) rfl).1,
   ((probe_ignores_remoteAddr envUp [withAddr "127.0.0.1:9333"] world0).2 "9333" 42
      (by decide) (by decide) rfl).2.2.2.1 [] "9222" 42 (by decide) (by decide) rfl,
   ((probe_ignores_remoteAddr envUp [withAddr "127.0.0.1:9333"] world0).2 "9333" 42
      (by decide) (by decide) rfl).2.2.2.2.1,
   fun h => absurd (((probe_ignores_remoteAddr envUp [withAddr "127.0.0.1:9333"] world0).2
      "9333" 42 (by decide) (by decide) rfl).2.2.2.2.2.mp h) (by decide)⟩

/-! ## What `Find` leaves behind -/

theorem findLoop_some (kw : String) (tabs : List (Option Tab)) (r : Tab)
    (h : findLoop kw tabs = Outcome.ret (some r)) :
    ∃ (pre : List (Option Tab)) (t : Tab) (post : List (Option Tab)),
      tabs = pre ++ some t :: post ∧ matchesKw kw t = true ∧ r = withQueues t ∧
      (∀ x ∈ pre, ∃ y, x = some y ∧ matchesKw kw y = false) ∧
      tabsAfterFind kw tabs = pre ++ some r :: post := by
  induction tabs with
  | nil => simp [findLoop] at h
  | cons a rest ih =>
    cases a with
    | none => simp [findLoop] at h
    | some a =>
      by_cases ha : matchesKw kw a = true
      · have hr : r = withQueues a := by
          simp only [findLoop, ha, if_true, Outcome.ret.injEq, Option.some.injEq] at h
          exact h.symm
        exact ⟨[], a, rest, rfl, ha, hr, by simp, by simp [tabsAfterFind, ha, hr]⟩
      · have h2 : findLoop kw rest = Outcome.ret (some r) := by
          simpa [findLoop, ha] using h
        obtain ⟨pre, t, post, hsplit, hm, hr, hpre, hafter⟩ := ih h2
        refine ⟨some a :: pre, t, post, by simp [hsplit], hm, hr, ?_,
          by simp [tabsAfterFind, ha, hafter]⟩
        intro x hx
        rcases List.mem_cons.mp hx with rfl | hx
        · exact ⟨a, rfl, by simpa using ha⟩
        · exact hpre x hx

/-- C14: when `Find` succeeds on a fetched and decoded listing, the listing splits around
the matched descriptor `t` and the returned tab has the id, url, title and socket address of
`t`, three empty queues of capacity 1024, and the socket field of `t` untouched; the effects
of `Find` are the request, the three `make` calls and the closing of the body, so nothing is
dialed or sent and no read loop is started; the other entries of the listing are as they
were decoded; and `newTab` on the returned tab begins by dialing its socket address. -/
theorem Find_locates_without_attaching (env : Env) (c : Chrome) (kw : String) (w : World)
    (body : String) (tabs : List (Option Tab)) (r : Tab)
    (hget : env.httpGet w.httpCount w.httpTimeout ("http://" ++ c.remoteAddr ++ "/json")
      = Except.ok body)
    (hdec : env.decodeTabs body = Except.ok tabs)
    (hfind : (c.Find env kw w).1 = Outcome.ret (some r, none)) :
    ∃ (pre : List (Option Tab)) (t : Tab) (post : List (Option Tab)),
      tabs = pre ++ some t :: post ∧ matchesKw kw t = true ∧
      r.Id = t.Id ∧ r.Url = t.Url ∧ r.Title = t.Title ∧
      r.WebSocketDebuggerUrl = t.WebSocketDebuggerUrl ∧
      r.Ipc.events = some { cap := 1024, buf := [] } ∧
      r.Ipc.returns = some { cap := 1024, buf := [] } ∧
      r.Ipc.errors = some { cap := 1024, buf := [] } ∧
      r.Ipc.Conn = t.Ipc.Conn ∧
      (c.Find env kw w).2.trace = w.trace ++
        [Effect.httpGet ("http://" ++ c.remoteAddr ++ "/json"),
         Effect.makeQueue Queue.events 1024, Effect.makeQueue Queue.returns 1024,
         Effect.makeQueue Queue.errors 1024, Effect.closeBody] ∧
      tabsAfterFind kw tabs = pre ++ some r :: post ∧
      (∀ v : World, ∃ rest,
        (newTab env r v).2.trace = v.trace ++ Effect.dial r.WebSocketDebuggerUrl :: rest) := by
  have hloop : findLoop kw tabs = Outcome.ret (some r) := by
    cases hf : findLoop kw tabs with
    | panic => simp [Chrome.Find, httpGet, hget, hdec, hf] at hfind
    | ret o =>
      cases o with
      | none => simp [Chrome.Find, httpGet, hget, hdec, hf] at hfind
      | some x =>
        simp only [Chrome.Find, httpGet, hget, hdec, hf, Prod.mk.injEq, Outcome.ret.injEq,
          Option.some.injEq, and_true] at hfind
        rw [hfind]
  obtain ⟨pre, t, post, hsplit, hm, hr, -, hafter⟩ := findLoop_some kw tabs r hloop
  refine ⟨pre, t, post, hsplit, hm, ?_, ?_, ?_, ?_, ?_, ?_, ?_, ?_, ?_, hafter, ?_⟩
  · rw [hr]; rfl
  · rw [hr]; rfl
  · rw [hr]; rfl
  · rw [hr]; rfl
  · rw [hr]; rfl
  · rw [hr]; rfl
  · rw [hr]; rfl
  · rw [hr]; rfl
  · simp [Chrome.Find, httpGet, hget, hdec, hloop, World.log, queueEffects]
  · intro v
    unfold newTab
    cases env.dial r.WebSocketDebuggerUrl with
    | error e => exact ⟨[], by simp [World.log]⟩
    | ok conn =>
      exact ⟨queueEffects ++ [Effect.send domEnable [], Effect.send pageEnable [],
        Effect.goHandle], by simp [World.log]⟩

/-- C14 on the listing of four targets and the keyword `example.org`: the third target is
returned with its queues, and the listing is otherwise as decoded. -/
theorem Find_locates_without_attaching_witness :
    (chrome0.Find envUp "example.org" world0).1
      = Outcome.ret (some (withQueues (descriptor "C3" "Docs" "http://example.org/docs")),
          none) ∧
    ∃ (pre : List (Option Tab)) (t : Tab) (post : List (Option Tab)),
      listing4.map some = pre ++ some t :: post ∧ matchesKw "example.org" t = true ∧
      (withQueues (descriptor "C3" "Docs" "http://example.org/docs")).Id = t.Id ∧
      (withQueues (descriptor "C3" "Docs" "http://example.org/docs")).Ipc.Conn = t.Ipc.Conn ∧
      tabsAfterFind "example.org" (listing4.map some)
        = pre ++ some (withQueues (descriptor "C3" "Docs" "http://example.org/docs")) :: post :=
  ⟨by decide,
   (Find_locates_without_attaching envUp chrome0 "example.org" world0 "body"
      (listing4.map some)
      (withQueues (descriptor "C3" "Docs" "http://example.org/docs")) rfl rfl
      (by decide)).imp fun _ h => h.imp fun _ h => h.imp fun _ h =>
        ⟨h.1, h.2.1, h.2.2.1, h.2.2.2.2.2.2.2.2.2.1, h.2.2.2.2.2.2.2.2.2.2.2.1⟩⟩

/-! ## Correlation of requests and responses -/

theorem Router.run_append (r : Router) (xs ys : List Action) :
    r.run (xs ++ ys) = (r.run xs).run ys := by
  simp [Router.run, List.foldl_append]

theorem Router.run_cons (r : Router) (a : Action) (xs : List Action) :
    r.run (a :: xs) = (r.step a).run xs := rfl

theorem callers_append (xs ys : List Action) : callers (xs ++ ys) = callers xs ++ callers ys := by
  induction xs with
  | nil => rfl
  | cons a xs ih => cases a <;> simp [callers, ih]

theorem takePending_cons_ne (id j : Nat) (c : String) (pend : List (Nat × String))
    (h : j ≠ id) :
    (takePending id ((j, c) :: pend)).map Prod.fst = (takePending id pend).map Prod.fst := by
  simp only [takePending, if_neg h]
  cases takePending id pend with
  | none => rfl
  | some x => rfl

theorem takePending_other (id j : Nat) (c : String) (pend rest : List (Nat × String))
    (hne : j ≠ id) (h : takePending j pend = some (c, rest)) :
    (takePending id rest).map Prod.fst = (takePending id pend).map Prod.fst := by
  induction pend generalizing rest c with
  | nil => simp [takePending] at h
  | cons e pend ih =>
    obtain ⟨k, d⟩ := e
    by_cases hk : k = j
    · subst hk
      simp only [takePending, if_true, Option.some.injEq, Prod.mk.injEq] at h
      obtain ⟨-, h⟩ := h
      subst h
      exact (takePending_cons_ne id k d _ hne).symm
    · simp only [takePending, if_neg hk] at h
      cases ht : takePending j pend with
      | none => rw [ht] at h; simp at h
      | some x =>
        obtain ⟨c2, rest2⟩ := x
        rw [ht] at h
        simp only [Option.some.injEq, Prod.mk.injEq] at h
        obtain ⟨-, h⟩ := h
        subst h
        have := ih c2 rest2 ht
        by_cases hki : k = id
        · subst hki
          simp [takePending]
        · rw [takePending_cons_ne id k d rest2 hki, takePending_cons_ne id k d pend hki, this]

theorem takePending_count (id : Nat) (c caller : String) (pend rest : List (Nat × String))
    (h : takePending id pend = some (c, rest)) :
    (pend.filter (fun e => e.2 == caller)).length
      = (rest.filter (fun e => e.2 == caller)).length + (if c = caller then 1 else 0) := by
  induction pend generalizing rest c with
  | nil => simp [takePending] at h
  | cons e pend ih =>
    obtain ⟨k, d⟩ := e
    by_cases hk : k = id
    · simp only [takePending, if_pos hk, Option.some.injEq, Prod.mk.injEq] at h
      obtain ⟨h1, h2⟩ := h
      subst h1 h2
      by_cases hd : d = caller <;> simp [List.filter_cons, hd]
    · simp only [takePending, if_neg hk] at h
      cases ht : takePending id pend with
      | none => rw [ht] at h; simp at h
      | some x =>
        obtain ⟨c2, rest2⟩ := x
        rw [ht] at h
        simp only [Option.some.injEq, Prod.mk.injEq] at h
        obtain ⟨h1, h2⟩ := h
        subst h1 h2
        have := ih c2 rest2 ht
        by_cases hd : d = caller <;> simp [List.filter_cons, hd, this]
        omega

theorem takePending_sublist (id : Nat) (c : String) (pend rest : List (Nat × String))
    (h : takePending id pend = some (c, rest)) : rest.Sublist pend := by
  induction pend generalizing rest c with
  | nil => simp [takePending] at h
  | cons e pend ih =>
    obtain ⟨k, d⟩ := e
    by_cases hk : k = id
    · simp only [takePending, if_pos hk, Option.some.injEq, Prod.mk.injEq] at h
      obtain ⟨-, h2⟩ := h
      subst h2
      exact List.sublist_cons_self _ _
    · simp only [takePending, if_neg hk] at h
      cases ht : takePending id pend with
      | none => rw [ht] at h; simp at h
      | some x =>
        obtain ⟨c2, rest2⟩ := x
        rw [ht] at h
        simp only [Option.some.injEq, Prod.mk.injEq] at h
        obtain ⟨-, h2⟩ := h
        subst h2
        exact (ih c2 rest2 ht).cons₂ _
theorem Router.step_keeps_slot (r : Router) (a : Action) (i : Nat) (c : String)
    (hs : (takePending i r.pending).map Prod.fst = some c) (hlt : i < r.nextId)
    (ha : ∀ p, a ≠ Action.frame i p) :
    (takePending i (r.step a).pending).map Prod.fst = some c ∧ i < (r.step a).nextId := by
  cases a with
  | send caller method =>
    have hne : r.nextId ≠ i := Nat.ne_of_gt hlt
    exact ⟨by simp only [Router.step, Router.send]; rw [takePending_cons_ne i _ _ _ hne, hs],
      Nat.lt_succ_of_lt hlt⟩
  | frame j p =>
    have hne : j ≠ i := fun h => ha p (by rw [h])
    simp only [Router.step, Router.dispatch]
    cases ht : takePending j r.pending with
    | none => exact ⟨hs, hlt⟩
    | some x =>
      obtain ⟨c2, rest⟩ := x
      exact ⟨by simp only []; rw [takePending_other i j c2 r.pending rest hne ht, hs], hlt⟩

theorem Router.run_keeps_slot (acts : List Action) (r : Router) (i : Nat) (c : String)
    (hs : (takePending i r.pending).map Prod.fst = some c) (hlt : i < r.nextId)
    (ha : ∀ p, Action.frame i p ∉ acts) :
    (takePending i (r.run acts).pending).map Prod.fst = some c := by
  induction acts generalizing r with
  | nil => exact hs
  | cons a acts ih =>
    have h1 : ∀ p, a ≠ Action.frame i p := fun p h => ha p (by rw [h]; exact List.mem_cons_self _ _)
    obtain ⟨h2, h3⟩ := Router.step_keeps_slot r a i c hs hlt h1
    exact ih (r.step a) h2 h3 (fun p hp => ha p (List.mem_cons_of_mem _ hp))

theorem Router.step_resolved_mem (r : Router) (a : Action) (x : String × String)
    (hx : x ∈ r.resolved) : x ∈ (r.step a).resolved := by
  cases a with
  | send caller method => exact hx
  | frame j p =>
    simp only [Router.step, Router.dispatch]
    cases takePending j r.pending with
    | none => exact hx
    | some y => exact List.mem_append_left _ hx

theorem Router.run_resolved_mem (acts : List Action) (r : Router) (x : String × String)
    (hx : x ∈ r.resolved) : x ∈ (r.run acts).resolved := by
  induction acts generalizing r with
  | nil => exact hx
  | cons a acts ih => exact ih (r.step a) (Router.step_resolved_mem r a x hx)

theorem Router.step_count (r : Router) (a : Action) (c : String) :
    (pendingOf c (r.step a)).length + (resolutionsOf c (r.step a)).length
      = (pendingOf c r).length + (resolutionsOf c r).length + (callers [a]).count c := by
  cases a with
  | send caller method =>
    by_cases h : caller = c
    · simp [Router.step, Router.send, pendingOf, resolutionsOf, callers, List.filter_cons, h]
      omega
    · have h0 : List.count c [caller] = 0 :=
        List.count_eq_zero.mpr (by simpa using fun h2 : c = caller => h h2.symm)
      simp [Router.step, Router.send, pendingOf, resolutionsOf, callers, List.filter_cons, h, h0]
  | frame j p =>
    simp only [Router.step, Router.dispatch, callers, List.count_nil, Nat.add_zero]
    cases ht : takePending j r.pending with
    | none => rfl
    | some y =>
      obtain ⟨c2, rest⟩ := y
      have := takePending_count j c2 c r.pending rest ht
      by_cases h : c2 = c
      · simp [pendingOf, resolutionsOf, List.filter_append, List.filter_cons, h] at this ⊢
        omega
      · simp [pendingOf, resolutionsOf, List.filter_append, List.filter_cons, h] at this ⊢
        omega

theorem Router.run_count (acts : List Action) (r : Router) (c : String) :
    (pendingOf c (r.run acts)).length + (resolutionsOf c (r.run acts)).length
      = (pendingOf c r).length + (resolutionsOf c r).length + (callers acts).count c := by
  induction acts generalizing r with
  | nil => simp [Router.run, callers]
  | cons a acts ih =>
    rw [Router.run_cons, ih, Router.step_count]
    have : callers (a :: acts) = callers [a] ++ callers acts := callers_append [a] acts
    rw [this, List.count_append]
    omega

theorem Router.step_ids (r : Router) (a : Action)
    (h1 : ∀ e ∈ r.pending, e.1 < r.nextId) (h2 : (r.pending.map Prod.fst).Nodup) :
    (∀ e ∈ (r.step a).pending, e.1 < (r.step a).nextId) ∧
    ((r.step a).pending.map Prod.fst).Nodup := by
  cases a with
  | send caller method =>
    constructor
    · intro e he
      rcases List.mem_cons.mp he with rfl | he
      · exact Nat.lt_succ_self _
      · exact Nat.lt_succ_of_lt (h1 e he)
    · simp only [Router.step, Router.send, List.map_cons, List.nodup_cons]
      refine ⟨?_, h2⟩
      intro hm
      obtain ⟨e, he, heq⟩ := List.mem_map.mp hm
      have := h1 e he
      omega
  | frame j p =>
    simp only [Router.step, Router.dispatch]
    cases ht : takePending j r.pending with
    | none => exact ⟨h1, h2⟩
    | some y =>
      obtain ⟨c2, rest⟩ := y
      have hsub := takePending_sublist j c2 r.pending rest ht
      exact ⟨fun e he => h1 e (hsub.subset he), h2.sublist (hsub.map Prod.fst)⟩

theorem Router.run_ids (acts : List Action) (r : Router)
    (h1 : ∀ e ∈ r.pending, e.1 < r.nextId) (h2 : (r.pending.map Prod.fst).Nodup) :
    ((r.run acts).pending.map Prod.fst).Nodup := by
  induction acts generalizing r with
  | nil => exact h2
  | cons a acts ih =>
    obtain ⟨h3, h4⟩ := Router.step_ids r a h1 h2
    exact ih (r.step a) h3 h4
theorem Router.step_written_mem (r : Router) (a : Action) (x : Nat × String)
    (hx : x ∈ r.written) : x ∈ (r.step a).written := by
  cases a with
  | send caller method => exact List.mem_append_left _ hx
  | frame j p =>
    simp only [Router.step, Router.dispatch]
    cases takePending j r.pending with
    | none => exact hx
    | some y => exact hx

theorem Router.run_written_mem (acts : List Action) (r : Router) (x : Nat × String)
    (hx : x ∈ r.written) : x ∈ (r.run acts).written := by
  induction acts generalizing r with
  | nil => exact hx
  | cons a acts ih => exact ih (r.step a) (Router.step_written_mem r a x hx)

theorem eq_singleton_of_mem_of_length_le_one {α : Type} (l : List α) (x : α) (hx : x ∈ l)
    (hl : l.length ≤ 1) : l = [x] := by
  match l, hx, hl with
  | [y], hx, _ => simp at hx; rw [hx]
  | _ :: _ :: _, _, hl => simp at hl

/-- C11, on the Router modelled from the spec: on a fresh Connection, in every sequence of
Sends and inbound result frames in which each Send has its own caller, a Send that is
allocated id `i` and is followed, after any other Sends and frames not carrying `i`, by a
frame carrying `i` receives exactly one resolution, the payload of that frame, whatever else
comes before, in between or after; the frame written for it carries `i`; and no two pending
requests ever share an id. -/
theorem Send_resolved_by_own_id (first : Nat) (pre mid post : List Action)
    (caller method payload : String)
    (hcallers : (callers (pre ++ Action.send caller method ::
      (mid ++ Action.frame ((Router.opened first).run pre).nextId payload :: post))).Nodup)
    (hmid : ∀ p, Action.frame ((Router.opened first).run pre).nextId p ∉ mid) :
    resolutionsOf caller ((Router.opened first).run (pre ++ Action.send caller method ::
        (mid ++ Action.frame ((Router.opened first).run pre).nextId payload :: post)))
      = [(caller, payload)] ∧
    (((Router.opened first).run pre).nextId, method)
      ∈ ((Router.opened first).run (pre ++ Action.send caller method ::
        (mid ++ Action.frame ((Router.opened first).run pre).nextId payload :: post))).written ∧
    ∀ acts : List Action, (((Router.opened first).run acts).pending.map Prod.fst).Nodup := by
  have hrun : (Router.opened first).run (pre ++ Action.send caller method ::
        (mid ++ Action.frame ((Router.opened first).run pre).nextId payload :: post))
      = (((((Router.opened first).run pre).send caller method).run mid).dispatch
          ((Router.opened first).run pre).nextId payload).run post := by
    rw [Router.run_append, Router.run_cons, Router.run_append, Router.run_cons]
    rfl
  refine ⟨?_, ?_, ?_⟩
  · apply eq_singleton_of_mem_of_length_le_one
    · -- the resolution is delivered
      rw [hrun]
      have hslot : (takePending ((Router.opened first).run pre).nextId
          ((((Router.opened first).run pre).send caller method).run mid).pending).map Prod.fst
          = some caller := by
        apply Router.run_keeps_slot
        · simp [Router.send, takePending]
        · exact Nat.lt_succ_self _
        · exact hmid
      have hmem : (caller, payload) ∈ (((((Router.opened first).run pre).send caller
          method).run mid).dispatch ((Router.opened first).run pre).nextId payload).resolved := by
        unfold Router.dispatch
        cases ht : takePending ((Router.opened first).run pre).nextId
            ((((Router.opened first).run pre).send caller method).run mid).pending with
        | none => rw [ht] at hslot; simp at hslot
        | some y =>
          obtain ⟨c2, rest⟩ := y
          rw [ht] at hslot
          simp only [Option.map_some', Option.some.injEq] at hslot
          subst hslot
          simp
      have := Router.run_resolved_mem post _ _ hmem
      unfold resolutionsOf
      exact List.mem_filter.mpr ⟨this, by simp⟩
    · -- and it is the only one
      have hc := Router.run_count (pre ++ Action.send caller method ::
        (mid ++ Action.frame ((Router.opened first).run pre).nextId payload :: post))
        (Router.opened first) caller
      have h1 := List.nodup_iff_count_le_one.mp hcallers caller
      have h0 : (pendingOf caller (Router.opened first)).length
          + (resolutionsOf caller (Router.opened first)).length = 0 := rfl
      omega
  · rw [hrun]
    apply Router.run_written_mem
    unfold Router.dispatch
    have hw : (((Router.opened first).run pre).nextId, method)
        ∈ ((((Router.opened first).run pre).send caller method).run mid).written :=
      Router.run_written_mem mid _ _ (by simp [Router.send])
    cases takePending ((Router.opened first).run pre).nextId
        ((((Router.opened first).run pre).send caller method).run mid).pending with
    | none => exact hw
    | some y => exact hw
  · intro acts
    exact Router.run_ids acts (Router.opened first) (by simp [Router.opened])
      (by simp [Router.opened])

/-- C11 on the example of the spec: A sends, then B sends, the response to B arrives before
the response to A, and A receives the result of A. -/
theorem Send_resolved_by_own_id_witness :
    (Router.run (Router.opened 1)
      [Action.send "A" "Page.navigate", Action.send "B" "DOM.getDocument",
       Action.frame 2 "resultB", Action.frame 1 "resultA"]).resolved
      = [("B", "resultB"), ("A", "resultA")] ∧
    resolutionsOf "A" (Router.run (Router.opened 1)
      [Action.send "A" "Page.navigate", Action.send "B" "DOM.getDocument",
       Action.frame 2 "resultB", Action.frame 1 "resultA"]) = [("A", "resultA")] :=
  ⟨by decide,
   (Send_resolved_by_own_id 1 [] [Action.send "B" "DOM.getDocument", Action.frame 2 "resultB"]
     [] "A" "Page.navigate" "resultA" (by decide)
     (by intro p h; simp [Router.run, Router.opened] at h)).1⟩

end chrome
